import Mathlib

/-!
# Tegra210 per-CPU timer driver (`drivers/clocksource/tegra210_timer.c`)

A shallow embedding of the driver and a verification of its register-level
behaviour.

Modelling conventions

* Memory-mapped registers are a map from byte address to the 32-bit word held
  there; every access of the driver is a 32-bit `__raw_writel`.
* The hardware state also carries a ghost log of the externally visible
  effects, in program order (register writes, calls into the interrupt core,
  the clock-event framework and the event-handler callback).
* C integers are natural numbers holding the bit pattern of the value, with the
  width made explicit: `int` and `u32` are 32 bits wide, `unsigned long` is 64
  bits wide (Tegra210 is an arm64 SoC).
* `BUG()` / `BUG_ON()` abort the function: the result is `Except.error` with
  the site that fired, together with the hardware state reached so far.
-/

namespace Tegra210Timer

/-! ## Register map (lines 36-42) -/

def TMRCR : Nat := 0x000
def TMRSR : Nat := 0x004
def TMRCSSR : Nat := 0x014
def TKEIE : Nat := 0x100

def TIMER10_OFFSET : Nat := 0x90
def TIMER_FOR_CPU (cpu : Nat) : Nat := TIMER10_OFFSET + cpu * 8

/-! ## C integer arithmetic -/

/-- Number of values of a 32-bit word (`int`, `u32`). -/
def WORD32 : Nat := 2 ^ 32

/-- Number of values of an `unsigned long` (64 bits on arm64). -/
def WORD64 : Nat := 2 ^ 64

/-- Left shift on `int`, as the bit pattern of the 32-bit result
(`1 << 31` is the pattern `0x80000000`, the value `INT_MIN`). -/
def int_shl (a n : Nat) : Nat := (a * 2 ^ n) % WORD32

/-- Usual arithmetic conversion of an `int` (given by its 32-bit pattern) to
`unsigned long`: sign extension to 64 bits. -/
def int_to_ulong (x : Nat) : Nat :=
  if 2 ^ 31 ≤ x then x + (WORD64 - WORD32) else x

/-- Conversion of a mathematical integer to `unsigned long` (reduction modulo
`2^64`), used for the `int irq_count` compared with an `unsigned long`. -/
def Int_to_ulong (x : Int) : Nat := (x % (WORD64 : Int)).toNat

/-- Subtraction on `u32` (wraps modulo `2^32`). -/
def u32_sub (a b : Nat) : Nat := (a + WORD32 - b % WORD32) % WORD32

/-! ## Data model (lines 44-65) -/

/-- The driver functions that `tegra210_timer_init` installs as callbacks. -/
inductive Callback where
  | null
  | tegra210_timer_set_next_event
  | tegra210_timer_shutdown
  | tegra210_timer_set_periodic
  deriving DecidableEq, Repr

/-- Feature flags of a clock event device. -/
inductive Feature where
  | CLOCK_EVT_FEAT_PERIODIC
  | CLOCK_EVT_FEAT_ONESHOT
  deriving DecidableEq, Repr

/-- Interrupt status flags and request flags used by the driver. -/
inductive IrqFlag where
  | IRQ_NOAUTOEN
  | IRQ_PER_CPU
  | IRQF_TIMER
  | IRQF_NOBALANCING
  deriving DecidableEq, Repr

/-- The fields of `struct clock_event_device` that the driver touches.  The
`event_handler` function pointer is owned by the clock-event framework and is
passed to the interrupt handler as an argument of the model. -/
structure clock_event_device where
  irq : Nat
  name : String
  cpumask : Option Nat
  features : List Feature
  rating : Nat
  set_next_event : Callback
  set_state_shutdown : Callback
  set_state_periodic : Callback
  set_state_oneshot : Callback
  tick_resume : Callback
  deriving DecidableEq, Repr

/-- Model of `struct tegra210_tmr`.  The back pointer `tke` is `true` once it
points to the (single) timer complex and `false` while it is `NULL`. -/
structure tegra210_tmr where
  evt : clock_event_device
  tmr_index : Nat
  cpu_index : Nat
  freq : Nat
  name : String
  reg_base : Nat
  tke : Bool
  deriving DecidableEq, Repr

/-- Model of `struct tegra210_tke`: the shared register base and the array of
per-CPU units, indexed by CPU number. -/
structure tegra210_tke where
  reg_base : Nat
  tegra210_tmr : Nat → tegra210_tmr

/-- A unit as left by `memset(tke, 0, sizeof(*tke))`. -/
def zero_tmr : tegra210_tmr :=
  { evt := { irq := 0, name := "", cpumask := none, features := [], rating := 0,
             set_next_event := .null, set_state_shutdown := .null,
             set_state_periodic := .null, set_state_oneshot := .null,
             tick_resume := .null },
    tmr_index := 0, cpu_index := 0, freq := 0, name := "", reg_base := 0,
    tke := false }

/-- The file-scope variables of the driver after initialisation. -/
structure Globals where
  tke : tegra210_tke
  tegra210_timer_reg_base : Nat
  usec_config : Nat

/-! ## Hardware state and effects -/

/-- Externally visible effects, in the order the driver performs them. -/
inductive Ev where
  | writel (val addr : Nat)
  | event_handler (tmr : tegra210_tmr)
  | irq_set_status_flags (irq : Nat) (flags : List IrqFlag)
  | request_irq (irq : Nat) (flags : List IrqFlag) (name : String)
  | enable_irq (irq : Nat)
  | disable_irq_nosync (irq : Nat)
  | irq_force_affinity (irq cpu : Nat)
  | clockevents_config_and_register (tmr : tegra210_tmr) (freq min_delta max_delta : Nat)
  | cpuhp_setup_state
  | register_syscore_ops
  deriving DecidableEq, Repr

/-- Register contents by byte address, and the ghost log of effects. -/
structure Hw where
  mem : Nat → Nat
  log : List Ev

/-- Append an effect to the ghost log. -/
def emit (e : Ev) (hw : Hw) : Hw :=
  { hw with log := hw.log ++ [e] }

/-- The 32-bit register write `__raw_writel(val, addr)`: the value is
converted to `u32` by the parameter type. -/
def __raw_writel (val addr : Nat) (hw : Hw) : Hw :=
  { mem := fun a => if a = addr then val % WORD32 else hw.mem a,
    log := hw.log ++ [Ev.writel (val % WORD32) addr] }

/-! ## Clock-event callbacks (lines 67-103) -/

/-- Lines 67-76.  `cycles` is an `unsigned long`; `(1 << 31)` is an `int`
that is converted to `unsigned long` before the OR, and the result is
truncated to `u32` by `__raw_writel`. -/
def tegra210_timer_set_next_event (cycles : Nat) (tmr : tegra210_tmr) (hw : Hw) :
    Int × Hw :=
  (0, __raw_writel
        (int_to_ulong (int_shl 1 31) ||| (if cycles > 1 then cycles - 1 else 0))
        (tmr.reg_base + TMRCR) hw)

/-- Lines 78-82. -/
def _shutdown (tmr : tegra210_tmr) (hw : Hw) : Hw :=
  __raw_writel (int_shl 0 31) (tmr.reg_base + TMRCR) hw

/-- Lines 84-91. -/
def tegra210_timer_shutdown (tmr : tegra210_tmr) (hw : Hw) : Int × Hw :=
  (0, _shutdown tmr hw)

/-- Lines 93-103.  `HZ` is the tick rate of the kernel configuration.  The
preset `(tmr->freq / HZ) - 1` is computed on `u32`. -/
def tegra210_timer_set_periodic (HZ : Nat) (tmr : tegra210_tmr) (hw : Hw) :
    Int × Hw :=
  let hw1 := _shutdown tmr hw
  (0, __raw_writel
        (int_shl 1 31 ||| int_shl 1 30 ||| u32_sub (tmr.freq / HZ) 1)
        (tmr.reg_base + TMRCR) hw1)

/-! ## Interrupt handler (lines 105-114) -/

inductive irqreturn_t where
  | IRQ_NONE
  | IRQ_HANDLED
  | IRQ_WAKE_THREAD
  deriving DecidableEq, Repr

/-- Lines 105-114.  `event_handler` is the callback stored in
`tmr->evt.event_handler`; it may do anything to the hardware state. -/
def tegra210_timer_isr (_irq : Nat) (dev_id : tegra210_tmr)
    (event_handler : tegra210_tmr → Hw → Hw) (hw : Hw) : irqreturn_t × Hw :=
  let tmr := dev_id
  let hw1 := __raw_writel (int_shl 1 30) (tmr.reg_base + TMRSR) hw
  let hw2 := event_handler tmr (emit (Ev.event_handler tmr) hw1)
  (irqreturn_t.IRQ_HANDLED, hw2)

/-! ## CPU hot-plug and system sleep hooks (lines 116-158) -/

/-- Modelled from the spec: the clock-event framework (not under `src/`)
drives a unit only through the callback contract of the unit: enter periodic
mode, shut down, enter one-shot mode and resume the tick (both set to the
shut-down function by the driver), and arm a one-shot event of `cycles`. -/
inductive ClkCall where
  | set_state_shutdown
  | set_state_periodic
  | set_state_oneshot
  | tick_resume
  | set_next_event (cycles : Nat)
  deriving DecidableEq, Repr

/-- Call through one of the `set_state_*` / `tick_resume` function pointers of
a unit; the framework skips a `NULL` pointer. -/
def call_state_callback (HZ : Nat) (cb : Callback) (tmr : tegra210_tmr) (hw : Hw) : Hw :=
  match cb with
  | .tegra210_timer_shutdown => (tegra210_timer_shutdown tmr hw).2
  | .tegra210_timer_set_periodic => (tegra210_timer_set_periodic HZ tmr hw).2
  | _ => hw

/-- Call through the `set_next_event` function pointer of a unit. -/
def call_next_event_callback (cb : Callback) (cycles : Nat) (tmr : tegra210_tmr)
    (hw : Hw) : Hw :=
  match cb with
  | .tegra210_timer_set_next_event => (tegra210_timer_set_next_event cycles tmr hw).2
  | _ => hw

/-- One callback invocation by the framework, dispatched through the callback
table stored in `tmr->evt`. -/
def framework_call (HZ : Nat) (tmr : tegra210_tmr) (c : ClkCall) (hw : Hw) : Hw :=
  match c with
  | .set_state_shutdown => call_state_callback HZ tmr.evt.set_state_shutdown tmr hw
  | .set_state_periodic => call_state_callback HZ tmr.evt.set_state_periodic tmr hw
  | .set_state_oneshot => call_state_callback HZ tmr.evt.set_state_oneshot tmr hw
  | .tick_resume => call_state_callback HZ tmr.evt.tick_resume tmr hw
  | .set_next_event cycles => call_next_event_callback tmr.evt.set_next_event cycles tmr hw

/-- A sequence of callback invocations by the framework, in order. -/
def run_framework_calls (HZ : Nat) (tmr : tegra210_tmr) : List ClkCall → Hw → Hw
  | [], hw => hw
  | c :: rest, hw => run_framework_calls HZ tmr rest (framework_call HZ tmr c hw)

/-- Lines 116-132 (with `CONFIG_SMP`).  `framework_calls` are the callbacks
that the clock-event framework invokes on the unit inside
`clockevents_config_and_register` while it registers the unit, and `HZ` is the
tick rate they run with; `affinity_ret` is the value returned by
`irq_force_affinity`; a non-zero value hits `BUG()`. -/
def tegra210_timer_setup (g : Globals) (HZ : Nat) (framework_calls : List ClkCall)
    (affinity_ret : Int) (cpu : Nat) (hw : Hw) : Except Unit Int × Hw :=
  let tmr := g.tke.tegra210_tmr cpu
  let hw1 := emit (Ev.clockevents_config_and_register tmr tmr.freq 1 0x1fffffff) hw
  let hw1 := run_framework_calls HZ tmr framework_calls hw1
  let hw2 := emit (Ev.irq_force_affinity tmr.evt.irq cpu) hw1
  if affinity_ret ≠ 0 then (.error (), hw2)
  else (.ok 0, emit (Ev.enable_irq tmr.evt.irq) hw2)

/-- Lines 134-142. -/
def tegra210_timer_stop (g : Globals) (cpu : Nat) (hw : Hw) : Int × Hw :=
  let tmr := g.tke.tegra210_tmr cpu
  let hw1 := _shutdown tmr hw
  (0, emit (Ev.disable_irq_nosync tmr.evt.irq) hw1)

/-- Lines 144-153.  `smp_processor_id` is the number of the calling CPU. -/
def tegra210_timer_suspend (g : Globals) (smp_processor_id : Nat) (hw : Hw) :
    Int × Hw :=
  let cpu := smp_processor_id
  let tmr := g.tke.tegra210_tmr cpu
  (0, _shutdown tmr hw)

/-- Lines 155-158. -/
def tegra210_timer_resume (g : Globals) (hw : Hw) : Hw :=
  __raw_writel g.usec_config (g.tegra210_timer_reg_base + TMRCSSR) hw

/-! ## Initialisation (lines 165-282) -/

/-- What the device tree node and the OF helpers return to the driver. -/
structure device_node where
  /-- Result of `of_iomap(np, 0)`; `0` is `NULL`. -/
  of_iomap : Nat
  /-- Property `tmr-count`; `none` when `of_property_read_u32` fails. -/
  tmr_count : Option Nat
  /-- Property `clock-frequency`; `none` when `of_property_read_u32` fails. -/
  clock_frequency : Option Nat
  /-- Result of `of_irq_count(np)`, an `int`. -/
  of_irq_count : Int
  /-- Result of `irq_of_parse_and_map(np, index)`; `0` is failure. -/
  irq_of_parse_and_map : Nat → Nat

/-- What the rest of the kernel answers during initialisation. -/
structure Platform where
  /-- Whether `vmalloc` returns a non-NULL pointer. -/
  vmalloc_ok : Bool
  /-- Number of CPU ids scanned by `for_each_possible_cpu`. -/
  nr_cpu_ids : Nat
  /-- The bitmap `cpu_possible_mask`. -/
  cpu_possible : Nat → Bool
  /-- Return value of `request_irq` for an interrupt number. -/
  request_irq : Nat → Int
  /-- Tick rate `HZ` of the kernel configuration. -/
  HZ : Nat
  /-- Callbacks that the clock-event framework invokes on a unit while
  `clockevents_config_and_register` registers it. -/
  clockevents_calls : tegra210_tmr → List ClkCall
  /-- Return value of `irq_force_affinity` for an interrupt number and a CPU. -/
  irq_force_affinity : Nat → Nat → Int
  /-- CPUs on which the hot-plug core runs the start hook while
  `cpuhp_setup_state` installs it (the CPUs that are already online). -/
  cpuhp_startup_cpus : List Nat

/-- The CPUs visited by `for_each_possible_cpu`, in increasing order. -/
def possible_cpus (env : Platform) : List Nat :=
  (List.range env.nr_cpu_ids).filter env.cpu_possible

/-- The places where initialisation can hit `BUG()`. -/
inductive BugSite where
  | vmalloc
  | of_iomap
  | tmr_count
  | clock_frequency
  | unknown_freq
  | tmr_index (cpu : Nat)
  | irq_index (cpu : Nat)
  | irq_map (cpu : Nat)
  | request_irq (cpu : Nat)
  | irq_force_affinity (cpu : Nat)
  deriving DecidableEq, Repr

/-- The `switch (freq)` of lines 198-225: `none` is the `default: BUG()`. -/
def usec_config_of (freq : Nat) : Option Nat :=
  if freq = 12000000 then some 0x000b
  else if freq = 12800000 then some 0x043f
  else if freq = 13000000 then some 0x000c
  else if freq = 16800000 then some 0x0453
  else if freq = 19200000 then some 0x045f
  else if freq = 26000000 then some 0x0019
  else if freq = 38400000 then some 0x04bf
  else if freq = 48000000 then some 0x002f
  else none

/-- The string written by `snprintf(tmr->name, sizeof(tmr->name), ...)` into
the 20-byte name buffer. -/
def tmr_name (cpu : Nat) : String :=
  String.mk (("tegra210_timer" ++ toString cpu).toList.take 19)

/-- Store a unit into slot `cpu` of the array of units. -/
def set_tmr (tke : tegra210_tke) (cpu : Nat) (tmr : tegra210_tmr) : tegra210_tke :=
  { tke with tegra210_tmr := fun c => if c = cpu then tmr else tke.tegra210_tmr c }

/-- One iteration of the loop of lines 228-269, for CPU `cpu`, with the
current value of `tmr_index`.  Returns the updated complex and `tmr_index`. -/
def init_cpu (env : Platform) (np : device_node) (usec_config freq tmr_count : Nat)
    (cpu : Nat) (tke : tegra210_tke) (tmr_index : Nat) (hw : Hw) :
    Except BugSite (tegra210_tke × Nat) × Hw :=
  let tmr := tke.tegra210_tmr cpu
  let tmr := { tmr with tke := true, tmr_index := tmr_index, freq := freq }
  if tmr_index ≥ tmr_count then (.error (.tmr_index cpu), hw)
  else
    let tmr := { tmr with reg_base := tke.reg_base + TIMER_FOR_CPU cpu }
    let irq_index := tmr_index
    if irq_index ≥ Int_to_ulong np.of_irq_count then (.error (.irq_index cpu), hw)
    else
      let irq := np.irq_of_parse_and_map cpu
      if irq = 0 then (.error (.irq_map cpu), hw)
      else
        let hw1 := __raw_writel usec_config (tmr.reg_base + TMRCSSR) hw
        let name := tmr_name cpu
        let tmr := { tmr with
          name := name,
          evt := { irq := irq, name := name, cpumask := some cpu,
                   features := [.CLOCK_EVT_FEAT_PERIODIC, .CLOCK_EVT_FEAT_ONESHOT],
                   rating := 460,
                   set_next_event := .tegra210_timer_set_next_event,
                   set_state_shutdown := .tegra210_timer_shutdown,
                   set_state_periodic := .tegra210_timer_set_periodic,
                   set_state_oneshot := .tegra210_timer_shutdown,
                   tick_resume := .tegra210_timer_shutdown } }
        let hw2 := emit (Ev.irq_set_status_flags irq [.IRQ_NOAUTOEN, .IRQ_PER_CPU]) hw1
        let hw3 := emit (Ev.request_irq irq [.IRQF_TIMER, .IRQF_NOBALANCING] name) hw2
        if env.request_irq irq ≠ 0 then (.error (.request_irq cpu), hw3)
        else (.ok (set_tmr tke cpu tmr, (tmr_index + 1) % WORD64), hw3)

/-- The loop `for_each_possible_cpu(cpu)` of lines 228-269 over the list of
CPUs still to visit. -/
def init_loop (env : Platform) (np : device_node) (usec_config freq tmr_count : Nat) :
    List Nat → tegra210_tke → Nat → Hw → Except BugSite (tegra210_tke × Nat) × Hw
  | [], tke, tmr_index, hw => (.ok (tke, tmr_index), hw)
  | cpu :: rest, tke, tmr_index, hw =>
    match init_cpu env np usec_config freq tmr_count cpu tke tmr_index hw with
    | (.error b, hw1) => (.error b, hw1)
    | (.ok (tke1, tmr_index1), hw1) =>
      init_loop env np usec_config freq tmr_count rest tke1 tmr_index1 hw1

/-- Modelled from the spec: `cpuhp_setup_state` (line 275, not under `src/`)
hands the start and stop hooks to the hot-plug registry, which calls the start
hook with a CPU index.  While installing the hooks the registry runs the start
hook `tegra210_timer_setup` on each CPU of the list, in order (the platform
says which CPUs: `cpuhp_startup_cpus`, possibly none); the framework callbacks
and the result of `irq_force_affinity` come from the platform as well.  A
`BUG()` inside the hook aborts. -/
def cpuhp_setup_state (env : Platform) (g : Globals) :
    List Nat → Hw → Except BugSite Unit × Hw
  | [], hw => (.ok (), hw)
  | cpu :: rest, hw =>
    match tegra210_timer_setup g env.HZ (env.clockevents_calls (g.tke.tegra210_tmr cpu))
        (env.irq_force_affinity (g.tke.tegra210_tmr cpu).evt.irq cpu) cpu hw with
    | (.error _, hw1) => (.error (.irq_force_affinity cpu), hw1)
    | (.ok _, hw1) => cpuhp_setup_state env g rest hw1

/-- Lines 271-281: the end of `tegra210_timer_init`, after the per-CPU loop.
The multiplier/shift pair of `clocks_calc_mult_shift` is not used by the driver
and is left out. -/
def init_finish (env : Platform) (g : Globals) (hw : Hw) : Except BugSite Globals × Hw :=
  let hw1 := emit Ev.cpuhp_setup_state hw
  match cpuhp_setup_state env g env.cpuhp_startup_cpus hw1 with
  | (.error b, hw2) => (.error b, hw2)
  | (.ok _, hw2) => (.ok g, emit Ev.register_syscore_ops hw2)

/-- Lines 165-282. -/
def tegra210_timer_init (env : Platform) (np : device_node) (hw : Hw) :
    Except BugSite Globals × Hw :=
  if !env.vmalloc_ok then (.error .vmalloc, hw)
  else
    let tke : tegra210_tke := { reg_base := np.of_iomap, tegra210_tmr := fun _ => zero_tmr }
    if tke.reg_base = 0 then (.error .of_iomap, hw)
    else
      match np.tmr_count with
      | none => (.error .tmr_count, hw)
      | some tmr_count =>
        match np.clock_frequency with
        | none => (.error .clock_frequency, hw)
        | some freq =>
          match usec_config_of freq with
          | none => (.error .unknown_freq, hw)
          | some usec_config =>
            match init_loop env np usec_config freq tmr_count (possible_cpus env) tke 0 hw with
            | (.error b, hw1) => (.error b, hw1)
            | (.ok (tke1, _), hw1) =>
              init_finish env { tke := tke1, tegra210_timer_reg_base := tke1.reg_base,
                                usec_config := usec_config } hw1

/-- The case labels of the `switch (freq)` of lines 198-225. -/
def supported_freqs : List Nat :=
  [12000000, 12800000, 13000000, 16800000, 19200000, 26000000, 38400000, 48000000]

/-! ## Sample inputs used to exercise the statements -/

/-- An all-zero register file with an empty log. -/
def blank_hw : Hw := { mem := fun _ => 0, log := [] }

/-- A unit at register base `0x1090` clocked at 19.2 MHz. -/
def demo_tmr : tegra210_tmr := { zero_tmr with reg_base := 0x1090, freq := 19200000 }

/-- A device tree node of a four-core part: registers mapped at `0x1000`,
19.2 MHz input clock, four timers and four interrupts. -/
def demo_np : device_node :=
  { of_iomap := 0x1000, tmr_count := some 4, clock_frequency := some 19200000,
    of_irq_count := 4, irq_of_parse_and_map := fun i => 32 + i }

/-- A four-CPU platform on which every kernel service succeeds; the hot-plug
registry runs the start hook on no CPU while the hooks are installed and the
clock-event framework invokes no callback at registration. -/
def demo_env : Platform :=
  { vmalloc_ok := true, nr_cpu_ids := 4, cpu_possible := fun _ => true,
    request_irq := fun _ => 0, HZ := 250, clockevents_calls := fun _ => [],
    irq_force_affinity := fun _ _ => 0, cpuhp_startup_cpus := [] }

/-- A platform whose possible CPUs are 0 and 2 only (CPU 1 and CPU 3 are not
possible), every kernel service succeeding. -/
def sparse_env : Platform :=
  { vmalloc_ok := true, nr_cpu_ids := 4, cpu_possible := fun c => c == 0 || c == 2,
    request_irq := fun _ => 0, HZ := 250, clockevents_calls := fun _ => [],
    irq_force_affinity := fun _ _ => 0, cpuhp_startup_cpus := [] }

/-- A device tree node announcing two timers and three interrupts, registers
mapped at `0x1000`, 19.2 MHz input clock. -/
def sparse_np : device_node :=
  { of_iomap := 0x1000, tmr_count := some 2, clock_frequency := some 19200000,
    of_irq_count := 3, irq_of_parse_and_map := fun i => 32 + i }

theorem or_mod_two_pow_distrib (a b n : Nat) :
    (a ||| b) % 2 ^ n = a % 2 ^ n ||| b % 2 ^ n := by
  apply Nat.eq_of_testBit_eq
  intro i
  simp only [Nat.testBit_mod_two_pow, Nat.testBit_or]
  cases decide (i < n) <;> simp

theorem enable_bit_as_ulong : int_to_ulong (int_shl 1 31) = 2 ^ 64 - 2 ^ 31 := by
  decide

theorem one_shot_word (L : Nat) (h : L < 2 ^ 32) :
    (int_to_ulong (int_shl 1 31) ||| L) % WORD32 = 2 ^ 31 ||| L := by
  have hc : (2 ^ 64 - 2 ^ 31) % 2 ^ 32 = 2 ^ 31 := by norm_num
  rw [enable_bit_as_ulong, WORD32, or_mod_two_pow_distrib, Nat.mod_eq_of_lt h, hc]

theorem periodic_word (x : Nat) (h1 : 1 ≤ x) (h2 : x ≤ 2 ^ 29) :
    (int_shl 1 31 ||| int_shl 1 30 ||| u32_sub x 1) % WORD32
      = 2 ^ 31 + 2 ^ 30 + (x - 1) := by
  have hs : u32_sub x 1 = x - 1 := by
    simp only [u32_sub, WORD32]
    omega
  have hc : int_shl 1 31 ||| int_shl 1 30 = 2 ^ 30 * 3 := by decide
  have hlt : x - 1 < 2 ^ 30 := by omega
  rw [hs, hc, ← Nat.mul_add_lt_is_or hlt 3, WORD32]
  omega

/-! ## Clock-event callbacks -/

/-- C1: for a cycle count below `2^32`, `tegra210_timer_set_next_event` returns
0 and performs exactly one write, to the control register of the unit
(`reg_base + 0x000`), of the word `2^31 OR L` with `L = cycles - 1` when
`cycles > 1` and `L = 0` otherwise; no other register changes.  In particular
0 and 1 cycles both load 0 and 5 cycles load 4. -/
theorem set_next_event_single_write (cycles : Nat) (tmr : tegra210_tmr) (hw : Hw)
    (h : cycles < 2 ^ 32) :
    (tegra210_timer_set_next_event cycles tmr hw).1 = 0 ∧
    (tegra210_timer_set_next_event cycles tmr hw).2.log
      = hw.log ++ [Ev.writel (2 ^ 31 ||| (if cycles > 1 then cycles - 1 else 0))
                    (tmr.reg_base + 0x000)] ∧
    (tegra210_timer_set_next_event cycles tmr hw).2.mem (tmr.reg_base + 0x000)
      = 2 ^ 31 ||| (if cycles > 1 then cycles - 1 else 0) ∧
    (∀ a, a ≠ tmr.reg_base + 0x000 →
      (tegra210_timer_set_next_event cycles tmr hw).2.mem a = hw.mem a) ∧
    (2 ^ 31 ||| (if cycles > 1 then cycles - 1 else 0)) < 2 ^ 32 ∧
    (tegra210_timer_set_next_event 0 tmr hw).2.log
      = hw.log ++ [Ev.writel (2 ^ 31 ||| 0) (tmr.reg_base + 0x000)] ∧
    (tegra210_timer_set_next_event 1 tmr hw).2.log
      = hw.log ++ [Ev.writel (2 ^ 31 ||| 0) (tmr.reg_base + 0x000)] ∧
    (tegra210_timer_set_next_event 5 tmr hw).2.log
      = hw.log ++ [Ev.writel (2 ^ 31 ||| 4) (tmr.reg_base + 0x000)] := by
  have hL : (if cycles > 1 then cycles - 1 else 0) < 2 ^ 32 := by
    split <;> omega
  have hv := one_shot_word _ hL
  have h0 := one_shot_word 0 (by decide)
  have h4 := one_shot_word 4 (by decide)
  refine ⟨rfl, ?_, ?_, ?_, ?_, ?_, ?_, ?_⟩
  · simp only [tegra210_timer_set_next_event, __raw_writel, TMRCR, hv]
  · simp only [tegra210_timer_set_next_event, __raw_writel, TMRCR, hv, if_true]
  · intro a ha
    simp only [tegra210_timer_set_next_event, __raw_writel, TMRCR]
    rw [if_neg ha]
  · exact Nat.or_lt_two_pow (by decide) hL
  · simp only [tegra210_timer_set_next_event, __raw_writel, TMRCR]
    rw [if_neg (by decide), h0]
  · simp only [tegra210_timer_set_next_event, __raw_writel, TMRCR]
    rw [if_neg (by decide), h0]
  · simp only [tegra210_timer_set_next_event, __raw_writel, TMRCR]
    rw [if_pos (by decide)]
    exact congrArg (fun v => hw.log ++ [Ev.writel v (tmr.reg_base + 0)]) h4

theorem set_next_event_single_write_witness :
    (5 : Nat) < 2 ^ 32 ∧
    (tegra210_timer_set_next_event 5 demo_tmr blank_hw).2.log
      = [Ev.writel 2147483652 0x1090] :=
  ⟨by decide, (set_next_event_single_write 5 demo_tmr blank_hw (by decide)).2.1⟩

/-- C2: when `1 ≤ freq / HZ ≤ 2^29`, `tegra210_timer_set_periodic` returns 0
and performs exactly two writes to the control register of the unit, first 0
and then `2^31 + 2^30 + (freq / HZ - 1)`; afterwards the control register
holds that word whatever it held before, its bits 31 and 30 are set, its low
29 bits equal `freq / HZ - 1`, and no other register has changed. -/
theorem set_periodic_two_writes (HZ : Nat) (tmr : tegra210_tmr) (hw : Hw)
    (h1 : 1 ≤ tmr.freq / HZ) (h2 : tmr.freq / HZ ≤ 2 ^ 29) :
    (tegra210_timer_set_periodic HZ tmr hw).1 = 0 ∧
    (tegra210_timer_set_periodic HZ tmr hw).2.log
      = hw.log ++ [Ev.writel 0 (tmr.reg_base + 0x000),
                   Ev.writel (2 ^ 31 + 2 ^ 30 + (tmr.freq / HZ - 1)) (tmr.reg_base + 0x000)] ∧
    (tegra210_timer_set_periodic HZ tmr hw).2.mem (tmr.reg_base + 0x000)
      = 2 ^ 31 + 2 ^ 30 + (tmr.freq / HZ - 1) ∧
    ((tegra210_timer_set_periodic HZ tmr hw).2.mem (tmr.reg_base + 0x000)).testBit 31 = true ∧
    ((tegra210_timer_set_periodic HZ tmr hw).2.mem (tmr.reg_base + 0x000)).testBit 30 = true ∧
    (tegra210_timer_set_periodic HZ tmr hw).2.mem (tmr.reg_base + 0x000) % 2 ^ 29
      = tmr.freq / HZ - 1 ∧
    (∀ a, a ≠ tmr.reg_base + 0x000 →
      (tegra210_timer_set_periodic HZ tmr hw).2.mem a = hw.mem a) := by
  have hv := periodic_word (tmr.freq / HZ) h1 h2
  have hz : int_shl 0 31 % WORD32 = 0 := by decide
  have hmem : (tegra210_timer_set_periodic HZ tmr hw).2.mem (tmr.reg_base + 0x000)
      = 2 ^ 31 + 2 ^ 30 + (tmr.freq / HZ - 1) := by
    simp only [tegra210_timer_set_periodic, _shutdown, __raw_writel, TMRCR, hv, if_true]
  refine ⟨rfl, ?_, hmem, ?_, ?_, ?_, ?_⟩
  · simp only [tegra210_timer_set_periodic, _shutdown, __raw_writel, TMRCR, hv, hz,
      List.append_assoc, List.singleton_append]
  · rw [hmem, Nat.testBit_to_div_mod]
    apply decide_eq_true
    omega
  · rw [hmem, Nat.testBit_to_div_mod]
    apply decide_eq_true
    omega
  · rw [hmem]
    omega
  · intro a ha
    simp only [tegra210_timer_set_periodic, _shutdown, __raw_writel, TMRCR]
    rw [if_neg ha, if_neg ha]

theorem set_periodic_two_writes_witness :
    1 ≤ demo_tmr.freq / 250 ∧ demo_tmr.freq / 250 ≤ 2 ^ 29 ∧
    (tegra210_timer_set_periodic 250 demo_tmr blank_hw).2.log
      = [Ev.writel 0 0x1090, Ev.writel 3221302271 0x1090] :=
  ⟨by decide, by decide,
   (set_periodic_two_writes 250 demo_tmr blank_hw (by decide) (by decide)).2.1⟩

/-- C3: from every register state `tegra210_timer_shutdown` returns 0 and
leaves the control register of the unit equal to 0 (enable bit clear), also
right after `set_periodic` or `set_next_event`; running it twice gives the
same register contents as running it once; the hot-plug stop hook and the
suspend hook return 0 and leave the control register of their target unit
equal to 0 as well. -/
theorem shutdown_disables_idempotent (g : Globals) (HZ cycles cpu : Nat)
    (tmr : tegra210_tmr) (hw : Hw) :
    (tegra210_timer_shutdown tmr hw).1 = 0 ∧
    (tegra210_timer_shutdown tmr hw).2.mem (tmr.reg_base + 0x000) = 0 ∧
    ((tegra210_timer_shutdown tmr hw).2.mem (tmr.reg_base + 0x000)).testBit 31 = false ∧
    (tegra210_timer_shutdown tmr (tegra210_timer_set_periodic HZ tmr hw).2).2.mem
      (tmr.reg_base + 0x000) = 0 ∧
    (tegra210_timer_shutdown tmr (tegra210_timer_set_next_event cycles tmr hw).2).2.mem
      (tmr.reg_base + 0x000) = 0 ∧
    (tegra210_timer_shutdown tmr (tegra210_timer_shutdown tmr hw).2).2.mem
      = (tegra210_timer_shutdown tmr hw).2.mem ∧
    (tegra210_timer_stop g cpu hw).1 = 0 ∧
    (tegra210_timer_stop g cpu hw).2.mem ((g.tke.tegra210_tmr cpu).reg_base + 0x000) = 0 ∧
    (tegra210_timer_suspend g cpu hw).1 = 0 ∧
    (tegra210_timer_suspend g cpu hw).2.mem ((g.tke.tegra210_tmr cpu).reg_base + 0x000) = 0 := by
  have hz : int_shl 0 31 % WORD32 = 0 := by decide
  have hsh : ∀ (t : tegra210_tmr) (w : Hw),
      (tegra210_timer_shutdown t w).2.mem (t.reg_base + 0x000) = 0 := by
    intro t w
    simp only [tegra210_timer_shutdown, _shutdown, __raw_writel, TMRCR, hz, if_true]
  refine ⟨rfl, hsh tmr hw, ?_, hsh tmr _, hsh tmr _, ?_, rfl, ?_, rfl, ?_⟩
  · rw [hsh tmr hw]
    exact Nat.zero_testBit 31
  · funext a
    simp only [tegra210_timer_shutdown, _shutdown, __raw_writel, TMRCR]
    split <;> rfl
  · simp only [tegra210_timer_stop, emit, _shutdown, __raw_writel, TMRCR, hz, if_true]
  · simp only [tegra210_timer_suspend, _shutdown, __raw_writel, TMRCR, hz, if_true]

/-- C4: one run of `tegra210_timer_isr` returns `IRQ_HANDLED` for every
callback, and the callback is invoked once, on the unit, from a state whose
log is the old log followed by exactly the write of `2^30` to the status
register (`reg_base + 0x004`) and the invocation marker, with the status
register already holding `2^30` and every other register untouched; a callback
that re-arms the unit therefore writes the control register after the
acknowledge. -/
theorem isr_ack_before_callback (irq cycles : Nat) (tmr : tegra210_tmr)
    (event_handler : tegra210_tmr → Hw → Hw) (hw : Hw) (h : cycles < 2 ^ 32) :
    (tegra210_timer_isr irq tmr event_handler hw).1 = irqreturn_t.IRQ_HANDLED ∧
    (∃ hw_cb : Hw,
      (tegra210_timer_isr irq tmr event_handler hw).2 = event_handler tmr hw_cb ∧
      hw_cb.log = hw.log ++ [Ev.writel (2 ^ 30) (tmr.reg_base + 0x004), Ev.event_handler tmr] ∧
      hw_cb.mem (tmr.reg_base + 0x004) = 2 ^ 30 ∧
      (∀ a, a ≠ tmr.reg_base + 0x004 → hw_cb.mem a = hw.mem a)) ∧
    (tegra210_timer_isr irq tmr
        (fun t w => (tegra210_timer_set_next_event cycles t w).2) hw).2.log
      = hw.log ++ [Ev.writel (2 ^ 30) (tmr.reg_base + 0x004), Ev.event_handler tmr,
                   Ev.writel (2 ^ 31 ||| (if cycles > 1 then cycles - 1 else 0))
                    (tmr.reg_base + 0x000)] := by
  have hc : int_shl 1 30 % WORD32 = 2 ^ 30 := by decide
  have hL : (if cycles > 1 then cycles - 1 else 0) < 2 ^ 32 := by
    split <;> omega
  have hv := one_shot_word _ hL
  refine ⟨rfl, ⟨emit (Ev.event_handler tmr)
      (__raw_writel (int_shl 1 30) (tmr.reg_base + TMRSR) hw), rfl, ?_, ?_, ?_⟩, ?_⟩
  · simp only [emit, __raw_writel, TMRSR, hc, List.append_assoc, List.singleton_append]
  · simp only [emit, __raw_writel, TMRSR, hc, if_true]
  · intro a ha
    simp only [emit, __raw_writel, TMRSR]
    rw [if_neg ha]
  · simp only [tegra210_timer_isr, tegra210_timer_set_next_event, emit, __raw_writel,
      TMRSR, TMRCR, hc, hv, List.append_assoc, List.singleton_append, List.cons_append,
      List.nil_append]

theorem isr_ack_before_callback_witness :
    (5 : Nat) < 2 ^ 32 ∧
    (tegra210_timer_isr 32 demo_tmr
        (fun t w => (tegra210_timer_set_next_event 5 t w).2) blank_hw).2.log
      = [Ev.writel 1073741824 0x1094, Ev.event_handler demo_tmr,
         Ev.writel 2147483652 0x1090] :=
  ⟨by decide,
   (isr_ack_before_callback 32 5 demo_tmr (fun _ w => w) blank_hw (by decide)).2.2⟩

theorem writel_frame (val addr a : Nat) (hw : Hw) (ha : a ≠ addr) :
    (__raw_writel val addr hw).mem a = hw.mem a := by
  simp only [__raw_writel]
  rw [if_neg ha]

theorem shutdown_frame (tmr : tegra210_tmr) (hw : Hw) (a : Nat)
    (ha : a ≠ tmr.reg_base + 0x000) : (_shutdown tmr hw).mem a = hw.mem a :=
  writel_frame _ _ a hw ha

/-! ## Callbacks invoked by the clock-event framework: frame -/

theorem call_state_callback_frame (HZ : Nat) (cb : Callback) (tmr : tegra210_tmr) (hw : Hw)
    (a : Nat) (ha : a ≠ tmr.reg_base + 0x000) :
    (call_state_callback HZ cb tmr hw).mem a = hw.mem a := by
  cases cb with
  | null => rfl
  | tegra210_timer_set_next_event => rfl
  | tegra210_timer_shutdown => exact shutdown_frame tmr hw a ha
  | tegra210_timer_set_periodic =>
    exact (writel_frame _ _ a _ ha).trans (shutdown_frame tmr hw a ha)

theorem call_next_event_callback_frame (cb : Callback) (cycles : Nat) (tmr : tegra210_tmr)
    (hw : Hw) (a : Nat) (ha : a ≠ tmr.reg_base + 0x000) :
    (call_next_event_callback cb cycles tmr hw).mem a = hw.mem a := by
  cases cb with
  | null => rfl
  | tegra210_timer_set_next_event => exact writel_frame _ _ a hw ha
  | tegra210_timer_shutdown => rfl
  | tegra210_timer_set_periodic => rfl

theorem framework_call_frame (HZ : Nat) (tmr : tegra210_tmr) (c : ClkCall) (hw : Hw)
    (a : Nat) (ha : a ≠ tmr.reg_base + 0x000) :
    (framework_call HZ tmr c hw).mem a = hw.mem a := by
  cases c with
  | set_state_shutdown => exact call_state_callback_frame HZ _ tmr hw a ha
  | set_state_periodic => exact call_state_callback_frame HZ _ tmr hw a ha
  | set_state_oneshot => exact call_state_callback_frame HZ _ tmr hw a ha
  | tick_resume => exact call_state_callback_frame HZ _ tmr hw a ha
  | set_next_event cycles => exact call_next_event_callback_frame _ cycles tmr hw a ha

theorem run_framework_calls_frame (HZ : Nat) (tmr : tegra210_tmr) (calls : List ClkCall) :
    ∀ (hw : Hw) (a : Nat), a ≠ tmr.reg_base + 0x000 →
      (run_framework_calls HZ tmr calls hw).mem a = hw.mem a := by
  induction calls with
  | nil => intro hw a _; rfl
  | cons c rest ih =>
    intro hw a ha
    rw [run_framework_calls, ih _ a ha]
    exact framework_call_frame HZ tmr c hw a ha

theorem setup_frame (g : Globals) (HZ : Nat) (calls : List ClkCall) (r : Int) (cpu : Nat)
    (hw : Hw) (a : Nat) (ha : a ≠ (g.tke.tegra210_tmr cpu).reg_base + 0x000) :
    (tegra210_timer_setup g HZ calls r cpu hw).2.mem a = hw.mem a := by
  have hrun := run_framework_calls_frame HZ (g.tke.tegra210_tmr cpu) calls
    (emit (Ev.clockevents_config_and_register (g.tke.tegra210_tmr cpu)
      (g.tke.tegra210_tmr cpu).freq 1 0x1fffffff) hw) a ha
  simp only [tegra210_timer_setup]
  split
  · exact hrun
  · exact hrun

theorem cpuhp_setup_state_frame (env : Platform) (g : Globals) (l : List Nat) :
    ∀ (hw hw1 : Hw) (r : Except BugSite Unit),
      cpuhp_setup_state env g l hw = (r, hw1) →
      ∀ a, (∀ s, s ∈ l → a ≠ (g.tke.tegra210_tmr s).reg_base + 0x000) →
        hw1.mem a = hw.mem a := by
  induction l with
  | nil =>
    intro hw hw1 r h a _
    simp only [cpuhp_setup_state, Prod.mk.injEq] at h
    rw [← h.2]
  | cons cpu rest ih =>
    intro hw hw1 r h a ha
    rw [cpuhp_setup_state] at h
    have hstep := setup_frame g env.HZ (env.clockevents_calls (g.tke.tegra210_tmr cpu))
      (env.irq_force_affinity (g.tke.tegra210_tmr cpu).evt.irq cpu) cpu hw a
      (ha cpu (List.mem_cons_self cpu rest))
    rcases hr : tegra210_timer_setup g env.HZ (env.clockevents_calls (g.tke.tegra210_tmr cpu))
      (env.irq_force_affinity (g.tke.tegra210_tmr cpu).evt.irq cpu) cpu hw with ⟨r1, hwm⟩
    rw [hr] at h hstep
    cases r1 with
    | error e =>
      simp only [Prod.mk.injEq] at h
      rw [← h.2]
      exact hstep
    | ok v =>
      simp only at h
      rw [← hstep]
      exact ih hwm hw1 r h a (fun s hs => ha s (List.mem_cons_of_mem cpu hs))

theorem init_finish_frame {env : Platform} {g : Globals} {hw hw1 : Hw}
    {r : Except BugSite Globals} (h : init_finish env g hw = (r, hw1)) (a : Nat)
    (ha : ∀ s, s ∈ env.cpuhp_startup_cpus → a ≠ (g.tke.tegra210_tmr s).reg_base + 0x000) :
    hw1.mem a = hw.mem a := by
  simp only [init_finish] at h
  rcases hc : cpuhp_setup_state env g env.cpuhp_startup_cpus (emit Ev.cpuhp_setup_state hw)
    with ⟨r1, hwm⟩
  have hfr := cpuhp_setup_state_frame env g _ _ _ _ hc a ha
  rw [hc] at h
  cases r1 with
  | error b =>
    simp only [Prod.mk.injEq] at h
    rw [← h.2]
    exact hfr
  | ok v =>
    simp only [Prod.mk.injEq] at h
    rw [← h.2]
    exact hfr

theorem init_finish_ok {env : Platform} {g g1 : Globals} {hw hw1 : Hw}
    (h : init_finish env g hw = (.ok g1, hw1)) : g1 = g := by
  simp only [init_finish] at h
  rcases hc : cpuhp_setup_state env g env.cpuhp_startup_cpus (emit Ev.cpuhp_setup_state hw)
    with ⟨r1, hwm⟩
  rw [hc] at h
  cases r1 with
  | error b => simp at h
  | ok v =>
    simp only [Prod.mk.injEq, Except.ok.injEq] at h
    exact h.1.symm

theorem init_finish_error_site {env : Platform} {g : Globals} {hw hw1 : Hw} {b : BugSite}
    (h : init_finish env g hw = (.error b, hw1)) : ∃ cpu, b = .irq_force_affinity cpu := by
  have hsite : ∀ (l : List Nat) (w w1 : Hw) (b1 : BugSite),
      cpuhp_setup_state env g l w = (.error b1, w1) → ∃ cpu, b1 = .irq_force_affinity cpu := by
    intro l
    induction l with
    | nil =>
      intro w w1 b1 h1
      simp [cpuhp_setup_state] at h1
    | cons cpu rest ih =>
      intro w w1 b1 h1
      rw [cpuhp_setup_state] at h1
      rcases hr : tegra210_timer_setup g env.HZ
        (env.clockevents_calls (g.tke.tegra210_tmr cpu))
        (env.irq_force_affinity (g.tke.tegra210_tmr cpu).evt.irq cpu) cpu w with ⟨r1, hwm⟩
      rw [hr] at h1
      cases r1 with
      | error e =>
        simp only [Prod.mk.injEq, Except.error.injEq] at h1
        exact ⟨cpu, h1.1.symm⟩
      | ok v =>
        simp only at h1
        exact ih hwm w1 b1 h1
  simp only [init_finish] at h
  rcases hc : cpuhp_setup_state env g env.cpuhp_startup_cpus (emit Ev.cpuhp_setup_state hw)
    with ⟨r1, hwm⟩
  rw [hc] at h
  cases r1 with
  | error b1 =>
    simp only [Prod.mk.injEq, Except.error.injEq] at h
    obtain ⟨rfl, _⟩ := h
    exact hsite _ _ _ _ hc
  | ok v => simp at h

/-! ## Initialisation: what one loop iteration and the whole loop do -/

theorem init_cpu_ok {env : Platform} {np : device_node} {usec freq n cpu idx idx1 : Nat}
    {tke tke1 : tegra210_tke} {hw hw1 : Hw}
    (h : init_cpu env np usec freq n cpu tke idx hw = (.ok (tke1, idx1), hw1)) :
    tke1.reg_base = tke.reg_base ∧
    (tke1.tegra210_tmr cpu).reg_base = tke.reg_base + TIMER_FOR_CPU cpu ∧
    (∀ c, c ≠ cpu → tke1.tegra210_tmr c = tke.tegra210_tmr c) := by
  simp only [init_cpu] at h
  split_ifs at h
  all_goals simp only [Prod.mk.injEq, Except.ok.injEq, reduceCtorEq, false_and] at h
  obtain ⟨⟨rfl, _⟩, _⟩ := h
  refine ⟨rfl, ?_, ?_⟩
  · simp [set_tmr]
  · intro c hc
    simp [set_tmr, hc]

theorem init_cpu_error_site {env : Platform} {np : device_node}
    {usec freq n cpu idx : Nat} {tke : tegra210_tke} {hw hw1 : Hw} {b : BugSite}
    (h : init_cpu env np usec freq n cpu tke idx hw = (.error b, hw1)) :
    b = .tmr_index cpu ∨ b = .irq_index cpu ∨ b = .irq_map cpu ∨ b = .request_irq cpu := by
  simp only [init_cpu] at h
  split_ifs at h
  all_goals simp only [Prod.mk.injEq, Except.error.injEq, reduceCtorEq, false_and] at h
  all_goals simp [← h.1]

theorem init_loop_ok {env : Platform} {np : device_node} {usec freq n : Nat}
    (l : List Nat) :
    ∀ (tke : tegra210_tke) (idx : Nat) (hw : Hw) (tke1 : tegra210_tke) (idx1 : Nat)
      (hw1 : Hw),
      init_loop env np usec freq n l tke idx hw = (.ok (tke1, idx1), hw1) →
      tke1.reg_base = tke.reg_base ∧
      (∀ c, c ∈ l → (tke1.tegra210_tmr c).reg_base = tke.reg_base + TIMER_FOR_CPU c) ∧
      (∀ c, (tke.tegra210_tmr c).reg_base = tke.reg_base + TIMER_FOR_CPU c →
        (tke1.tegra210_tmr c).reg_base = tke.reg_base + TIMER_FOR_CPU c) := by
  induction l with
  | nil =>
    intro tke idx hw tke1 idx1 hw1 h
    simp only [init_loop, Prod.mk.injEq, Except.ok.injEq] at h
    obtain ⟨⟨rfl, _⟩, _⟩ := h
    exact ⟨rfl, by simp, fun _ hc => hc⟩
  | cons cpu rest ih =>
    intro tke idx hw tke1 idx1 hw1 h
    rw [init_loop] at h
    rcases hr : init_cpu env np usec freq n cpu tke idx hw with ⟨r, hwm⟩
    rw [hr] at h
    cases r with
    | error b => simp at h
    | ok p =>
      obtain ⟨tkem, idxm⟩ := p
      simp only at h
      obtain ⟨hb, hcpu, hother⟩ := init_cpu_ok hr
      obtain ⟨hb1, hin, hkeep⟩ := ih tkem idxm hwm tke1 idx1 hw1 h
      have keep : ∀ c, (tke.tegra210_tmr c).reg_base = tke.reg_base + TIMER_FOR_CPU c →
          (tke1.tegra210_tmr c).reg_base = tke.reg_base + TIMER_FOR_CPU c := by
        intro c hc
        rw [← hb]
        apply hkeep
        rw [hb]
        by_cases hcc : c = cpu
        · rw [hcc]; exact hcpu
        · rw [hother c hcc]; exact hc
      refine ⟨hb1.trans hb, ?_, keep⟩
      intro c hc
      rcases List.mem_cons.mp hc with rfl | hc
      · rw [← hb]
        apply hkeep
        rw [hb]
        exact hcpu
      · rw [← hb]
        exact hin c hc

theorem init_loop_error_site {env : Platform} {np : device_node} {usec freq n : Nat}
    (l : List Nat) :
    ∀ (tke : tegra210_tke) (idx : Nat) (hw hw1 : Hw) (b : BugSite),
      init_loop env np usec freq n l tke idx hw = (.error b, hw1) →
      ∃ cpu, b = .tmr_index cpu ∨ b = .irq_index cpu ∨ b = .irq_map cpu
        ∨ b = .request_irq cpu := by
  induction l with
  | nil =>
    intro tke idx hw hw1 b h
    simp [init_loop] at h
  | cons cpu rest ih =>
    intro tke idx hw hw1 b h
    rw [init_loop] at h
    rcases hr : init_cpu env np usec freq n cpu tke idx hw with ⟨r, hwm⟩
    rw [hr] at h
    cases r with
    | error b1 =>
      simp only [Prod.mk.injEq, Except.error.injEq] at h
      obtain ⟨rfl, _⟩ := h
      exact ⟨cpu, init_cpu_error_site hr⟩
    | ok p =>
      obtain ⟨tkem, idxm⟩ := p
      simp only at h
      exact ih tkem idxm hwm hw1 b h

theorem init_cpu_frame {env : Platform} {np : device_node} {usec freq n cpu idx : Nat}
    {tke : tegra210_tke} {hw hw1 : Hw} {r : Except BugSite (tegra210_tke × Nat)}
    (h : init_cpu env np usec freq n cpu tke idx hw = (r, hw1)) (a : Nat)
    (ha : a ≠ tke.reg_base + TIMER_FOR_CPU cpu + TMRCSSR) :
    hw1.mem a = hw.mem a := by
  simp only [init_cpu] at h
  split_ifs at h
  all_goals simp only [Prod.mk.injEq] at h
  all_goals obtain ⟨_, rfl⟩ := h
  all_goals simp [emit, __raw_writel, ha]

theorem init_loop_frame {env : Platform} {np : device_node} {usec freq n : Nat}
    (l : List Nat) :
    ∀ (tke : tegra210_tke) (idx : Nat) (hw hw1 : Hw)
      (r : Except BugSite (tegra210_tke × Nat)),
      init_loop env np usec freq n l tke idx hw = (r, hw1) →
      ∀ a, (∀ c, c ∈ l → a ≠ tke.reg_base + TIMER_FOR_CPU c + TMRCSSR) →
        hw1.mem a = hw.mem a := by
  induction l with
  | nil =>
    intro tke idx hw hw1 r h a _
    simp only [init_loop, Prod.mk.injEq] at h
    rw [← h.2]
  | cons cpu rest ih =>
    intro tke idx hw hw1 r h a ha
    rw [init_loop] at h
    rcases hr : init_cpu env np usec freq n cpu tke idx hw with ⟨r1, hwm⟩
    rw [hr] at h
    have hstep : hwm.mem a = hw.mem a :=
      init_cpu_frame hr a (ha cpu (List.mem_cons_self cpu rest))
    cases r1 with
    | error b =>
      simp only [Prod.mk.injEq] at h
      rw [← h.2]
      exact hstep
    | ok p =>
      obtain ⟨tkem, idxm⟩ := p
      simp only at h
      obtain ⟨hb, _, _⟩ := init_cpu_ok hr
      rw [← hstep]
      apply ih tkem idxm hwm hw1 r h a
      intro c hc
      rw [hb]
      exact ha c (List.mem_cons_of_mem cpu hc)

theorem init_loop_base_cases {env : Platform} {np : device_node} {usec freq n : Nat}
    (l : List Nat) :
    ∀ (tke : tegra210_tke) (idx : Nat) (hw : Hw) (tke1 : tegra210_tke) (idx1 : Nat)
      (hw1 : Hw),
      init_loop env np usec freq n l tke idx hw = (.ok (tke1, idx1), hw1) →
      ∀ c, (tke1.tegra210_tmr c).reg_base = tke.reg_base + TIMER_FOR_CPU c ∨
        (tke1.tegra210_tmr c).reg_base = (tke.tegra210_tmr c).reg_base := by
  induction l with
  | nil =>
    intro tke idx hw tke1 idx1 hw1 h c
    simp only [init_loop, Prod.mk.injEq, Except.ok.injEq] at h
    obtain ⟨⟨rfl, _⟩, _⟩ := h
    exact Or.inr rfl
  | cons cpu rest ih =>
    intro tke idx hw tke1 idx1 hw1 h c
    rw [init_loop] at h
    rcases hr : init_cpu env np usec freq n cpu tke idx hw with ⟨r, hwm⟩
    rw [hr] at h
    cases r with
    | error b => simp at h
    | ok p =>
      obtain ⟨tkem, idxm⟩ := p
      simp only at h
      obtain ⟨hb, hcpu, hother⟩ := init_cpu_ok hr
      rcases ih tkem idxm hwm tke1 idx1 hw1 h c with h1 | h1
      · exact Or.inl (by rw [h1, hb])
      · by_cases hcc : c = cpu
        · exact Or.inl (by rw [h1, hcc, hcpu])
        · exact Or.inr (by rw [h1, hother c hcc])

theorem init_frame {env : Platform} {np : device_node} {hw hw1 : Hw}
    {r : Except BugSite Globals} (h : tegra210_timer_init env np hw = (r, hw1)) (a : Nat)
    (ha : ∀ c, c ∈ possible_cpus env → a ≠ np.of_iomap + TIMER_FOR_CPU c + TMRCSSR)
    (hs : ∀ s, s ∈ env.cpuhp_startup_cpus →
      a ≠ np.of_iomap + TIMER_FOR_CPU s + 0x000 ∧ a ≠ 0) :
    hw1.mem a = hw.mem a := by
  unfold tegra210_timer_init at h
  by_cases hv : env.vmalloc_ok = true
  swap
  · simp only [Bool.not_eq_true] at hv
    simp only [hv, Bool.not_false, if_true, Prod.mk.injEq] at h
    rw [← h.2]
  by_cases hb : np.of_iomap = 0
  · simp only [hv, Bool.not_true, Bool.false_eq_true, if_false, hb, if_true,
      Prod.mk.injEq] at h
    rw [← h.2]
  simp only [hv, Bool.not_true, Bool.false_eq_true, if_false, hb] at h
  cases hn : np.tmr_count with
  | none =>
    simp only [hn, Prod.mk.injEq] at h
    rw [← h.2]
  | some n =>
    cases hf : np.clock_frequency with
    | none =>
      simp only [hn, hf, Prod.mk.injEq] at h
      rw [← h.2]
    | some freq =>
      cases hu : usec_config_of freq with
      | none =>
        simp only [hn, hf, hu, Prod.mk.injEq] at h
        rw [← h.2]
      | some usec =>
        simp only [hn, hf, hu] at h
        rcases hl : init_loop env np usec freq n (possible_cpus env)
          { reg_base := np.of_iomap, tegra210_tmr := fun _ => zero_tmr } 0 hw with ⟨r1, hwl⟩
        rw [hl] at h
        have hfr : hwl.mem a = hw.mem a := init_loop_frame _ _ _ _ _ _ hl a ha
        cases r1 with
        | error b =>
          simp only [Prod.mk.injEq] at h
          rw [← h.2]
          exact hfr
        | ok p =>
          obtain ⟨tke1, idx⟩ := p
          simp only at h
          obtain ⟨hb, _, _⟩ := init_loop_ok _ _ _ _ _ _ _ hl
          have hcases := init_loop_base_cases _ _ _ _ _ _ _ hl
          rw [← hfr]
          apply init_finish_frame h a
          intro s hsm
          rcases hcases s with h1 | h1
          · simp only [h1]
            exact (hs s hsm).1
          · simp only [h1, zero_tmr]
            have := (hs s hsm).2
            omega

/-- The initialisation never writes the register at shared base + 0x014,
whether it completes or stops at a `BUG()`. -/
theorem init_keeps_shared_divider {env : Platform} {np : device_node} {hw hw1 : Hw}
    {r : Except BugSite Globals} (h : tegra210_timer_init env np hw = (r, hw1)) :
    hw1.mem (np.of_iomap + TMRCSSR) = hw.mem (np.of_iomap + TMRCSSR) := by
  apply init_frame h
  · intro c _
    simp only [TIMER_FOR_CPU, TIMER10_OFFSET, TMRCSSR]
    omega
  · intro s _
    simp only [TIMER_FOR_CPU, TIMER10_OFFSET, TMRCSSR]
    omega

theorem init_ok_inv {env : Platform} {np : device_node} {hw hw1 : Hw} {g : Globals}
    (h : tegra210_timer_init env np hw = (.ok g, hw1)) :
    env.vmalloc_ok = true ∧ np.of_iomap ≠ 0 ∧
    ∃ n freq usec tke1 idx hwl,
      np.tmr_count = some n ∧ np.clock_frequency = some freq ∧
      usec_config_of freq = some usec ∧
      init_loop env np usec freq n (possible_cpus env)
        { reg_base := np.of_iomap, tegra210_tmr := fun _ => zero_tmr } 0 hw
        = (.ok (tke1, idx), hwl) ∧
      g.tke = tke1 ∧ g.tegra210_timer_reg_base = tke1.reg_base ∧ g.usec_config = usec ∧
      init_finish env g hwl = (.ok g, hw1) := by
  unfold tegra210_timer_init at h
  by_cases hv : env.vmalloc_ok = true
  swap
  · simp [hv] at h
  by_cases hb : np.of_iomap = 0
  · simp [hv, hb] at h
  simp only [hv, Bool.not_true, Bool.false_eq_true, if_false, hb] at h
  refine ⟨hv, hb, ?_⟩
  cases hn : np.tmr_count with
  | none => simp [hn] at h
  | some n =>
    cases hf : np.clock_frequency with
    | none => simp [hn, hf] at h
    | some freq =>
      cases hu : usec_config_of freq with
      | none => simp [hn, hf, hu] at h
      | some usec =>
        simp only [hn, hf, hu] at h
        rcases hl : init_loop env np usec freq n (possible_cpus env)
          { reg_base := np.of_iomap, tegra210_tmr := fun _ => zero_tmr } 0 hw with ⟨r, hwl⟩
        rw [hl] at h
        cases r with
        | error b => simp at h
        | ok p =>
          obtain ⟨tke1, idx⟩ := p
          simp only at h
          have hg := init_finish_ok h
          subst hg
          exact ⟨n, freq, usec, tke1, idx, hwl, rfl, rfl, hu, hl, rfl, rfl, rfl, h⟩

theorem usec_config_of_some {freq c : Nat} (h : usec_config_of freq = some c) :
    freq ∈ supported_freqs ∧ c < 2 ^ 16 ∧
    freq * (c / 256 + 1) = 1000000 * (c % 256 + 1) := by
  unfold usec_config_of at h
  split_ifs at h with h1 h2 h3 h4 h5 h6 h7 h8
  all_goals
    simp only [Option.some.injEq] at h
    subst h
    subst_vars
    decide

theorem usec_config_of_none {freq : Nat} (h : usec_config_of freq = none) :
    freq ∉ supported_freqs := by
  unfold usec_config_of at h
  split_ifs at h with h1 h2 h3 h4 h5 h6 h7 h8
  simp only [supported_freqs, List.mem_cons, List.mem_singleton, List.not_mem_nil, or_false]
  omega

theorem demo_init_ok :
    ∃ g hw1, tegra210_timer_init demo_env demo_np blank_hw = (.ok g, hw1) := by
  have hok : (tegra210_timer_init demo_env demo_np blank_hw).1.isOk = true := by decide
  rcases h : tegra210_timer_init demo_env demo_np blank_hw with ⟨r, hw1⟩
  rw [h] at hok
  cases r with
  | error b => simp [Except.isOk, Except.toBool] at hok
  | ok g => exact ⟨g, hw1, rfl⟩

/-! ## Suspend and resume -/

/-- C5: after a successful `tegra210_timer_init`, `tegra210_timer_resume`
performs exactly one write, of the divider encoding that the initialisation
looked up for the input frequency, to the register at shared base + 0x014;
that register holds the encoding afterwards whatever it held before, and no
other register changes. -/
theorem resume_writes_usec_config (env : Platform) (np : device_node) (hw0 hw1 : Hw)
    (g : Globals) (hw : Hw) (hinit : tegra210_timer_init env np hw0 = (.ok g, hw1)) :
    ∃ freq usec, np.clock_frequency = some freq ∧ usec_config_of freq = some usec ∧
      g.usec_config = usec ∧
      (tegra210_timer_resume g hw).log = hw.log ++ [Ev.writel usec (np.of_iomap + 0x014)] ∧
      (tegra210_timer_resume g hw).mem (np.of_iomap + 0x014) = usec ∧
      (∀ a, a ≠ np.of_iomap + 0x014 → (tegra210_timer_resume g hw).mem a = hw.mem a) := by
  obtain ⟨_, _, n, freq, usec, tke1, idx, hwl, _, hf, hu, hl, hg1, hg2, hg3, _⟩ :=
    init_ok_inv hinit
  obtain ⟨hb, _, _⟩ := init_loop_ok _ _ _ _ _ _ _ hl
  have hbase : g.tegra210_timer_reg_base = np.of_iomap := by rw [hg2, hb]
  have hlt : usec % WORD32 = usec := by
    apply Nat.mod_eq_of_lt
    have := (usec_config_of_some hu).2.1
    simp only [WORD32]
    omega
  refine ⟨freq, usec, hf, hu, hg3, ?_, ?_, ?_⟩
  · simp only [tegra210_timer_resume, __raw_writel, TMRCSSR, hbase, hg3, hlt]
  · simp only [tegra210_timer_resume, __raw_writel, TMRCSSR, hbase, hg3, hlt, if_true]
  · intro a ha
    simp only [tegra210_timer_resume, __raw_writel, TMRCSSR, hbase]
    rw [if_neg ha]

theorem resume_writes_usec_config_witness :
    ∃ g hw1, tegra210_timer_init demo_env demo_np blank_hw = (.ok g, hw1) ∧
      ∃ freq usec, demo_np.clock_frequency = some freq ∧ usec_config_of freq = some usec ∧
        g.usec_config = usec ∧
        (tegra210_timer_resume g hw1).log = hw1.log ++ [Ev.writel usec (demo_np.of_iomap + 0x014)] ∧
        (tegra210_timer_resume g hw1).mem (demo_np.of_iomap + 0x014) = usec ∧
        (∀ a, a ≠ demo_np.of_iomap + 0x014 → (tegra210_timer_resume g hw1).mem a = hw1.mem a) := by
  obtain ⟨g, hw1, h⟩ := demo_init_ok
  exact ⟨g, hw1, h, resume_writes_usec_config demo_env demo_np blank_hw hw1 g hw1 h⟩

/-- C6 (evaluation at the failing input): on a four-core part clocked at
19.2 MHz whose registers are all zero, `tegra210_timer_init` succeeds and
leaves the register at shared base + 0x014 at its initial value 0 (its only
register writes go to `0x10a4, 0x10ac, 0x10b4, 0x10bc`), whereas after
`tegra210_timer_resume` that register holds `0x045f`. -/
theorem init_leaves_shared_divider_unwritten :
    (tegra210_timer_init demo_env demo_np blank_hw).1.isOk = true ∧
    (tegra210_timer_init demo_env demo_np blank_hw).2.mem (0x1000 + 0x014) = 0 ∧
    ((tegra210_timer_init demo_env demo_np blank_hw).2.log.filterMap
        (fun e => match e with
          | Ev.writel _ addr => some addr
          | _ => none)) = [0x10a4, 0x10ac, 0x10b4, 0x10bc] ∧
    (tegra210_timer_init demo_env demo_np blank_hw).1.toOption.map
        (fun g => (tegra210_timer_resume g
          (tegra210_timer_init demo_env demo_np blank_hw).2).mem (0x1000 + 0x014))
      = some 0x045f := by
  decide

/-! ## Divider table -/

/-- C7: for each of the eight supported input frequencies the divider lookup
of `tegra210_timer_init` yields one encoding `c`, and only that one; `c` fits
in 16 bits and, decoded with the n+1 scheme (low byte `lo`, high byte `hi`),
gives exactly 1 MHz: `f * (hi + 1) = 1000000 * (lo + 1)`. -/
theorem divider_lookup_exact (f : Nat) (hf : f ∈ supported_freqs) :
    ∃ c, usec_config_of f = some c ∧
      (∀ c1, usec_config_of f = some c1 → c1 = c) ∧
      c < 2 ^ 16 ∧
      f * (c / 256 + 1) = 1000000 * (c % 256 + 1) := by
  cases hu : usec_config_of f with
  | none => exact absurd hf (usec_config_of_none hu)
  | some c =>
    refine ⟨c, rfl, ?_, (usec_config_of_some hu).2.1, (usec_config_of_some hu).2.2⟩
    intro c1 hc1
    exact (Option.some.inj hc1).symm

theorem divider_lookup_exact_witness :
    12800000 ∈ supported_freqs ∧
    ∃ c, usec_config_of 12800000 = some c ∧
      (∀ c1, usec_config_of 12800000 = some c1 → c1 = c) ∧
      c < 2 ^ 16 ∧
      12800000 * (c / 256 + 1) = 1000000 * (c % 256 + 1) :=
  ⟨by decide, divider_lookup_exact 12800000 (by decide)⟩

/-- C8: when the steps before the divider lookup succeed and the
`clock-frequency` property is `f` (any value, 32-bit or not), the lookup yields an
encoding exactly when `f` is one of the eight supported frequencies, and
`tegra210_timer_init` stops at the `default: BUG()` of the lookup exactly when
it is not; in that case the hardware state is the initial one (no register
written, no interrupt requested, nothing logged) and no driver state is
returned. -/
theorem unknown_frequency_is_fatal (env : Platform) (np : device_node) (hw : Hw)
    (n f : Nat) (hv : env.vmalloc_ok = true) (hb : np.of_iomap ≠ 0)
    (hn : np.tmr_count = some n) (hf : np.clock_frequency = some f) :
    ((usec_config_of f).isSome = true ↔ f ∈ supported_freqs) ∧
    ((tegra210_timer_init env np hw).1 = .error .unknown_freq ↔ f ∉ supported_freqs) ∧
    (f ∉ supported_freqs →
      tegra210_timer_init env np hw = (.error .unknown_freq, hw)) ∧
    (f ∈ supported_freqs →
      ∃ c, usec_config_of f = some c ∧
        tegra210_timer_init env np hw
          = (match init_loop env np c f n (possible_cpus env)
                { reg_base := np.of_iomap, tegra210_tmr := fun _ => zero_tmr } 0 hw with
             | (.error b, hw1) => (.error b, hw1)
             | (.ok (tke1, _), hw1) =>
               init_finish env { tke := tke1, tegra210_timer_reg_base := tke1.reg_base,
                                 usec_config := c } hw1)) := by
  have hnone : usec_config_of f = none →
      tegra210_timer_init env np hw = (.error .unknown_freq, hw) := by
    intro hu
    simp [tegra210_timer_init, hv, hb, hn, hf, hu]
  have hsome : ∀ c, usec_config_of f = some c →
      tegra210_timer_init env np hw
        = (match init_loop env np c f n (possible_cpus env)
              { reg_base := np.of_iomap, tegra210_tmr := fun _ => zero_tmr } 0 hw with
           | (.error b, hw1) => (.error b, hw1)
           | (.ok (tke1, _), hw1) =>
             init_finish env { tke := tke1, tegra210_timer_reg_base := tke1.reg_base,
                               usec_config := c } hw1) := by
    intro c hu
    simp only [tegra210_timer_init, hv, hb, hn, hf, hu, Bool.not_true, Bool.false_eq_true,
      if_false]
  have hpast : ∀ c, usec_config_of f = some c →
      (tegra210_timer_init env np hw).1 ≠ .error .unknown_freq := by
    intro c hu
    rw [hsome c hu]
    rcases hl : init_loop env np c f n (possible_cpus env)
      { reg_base := np.of_iomap, tegra210_tmr := fun _ => zero_tmr } 0 hw with ⟨r, hwl⟩
    cases r with
    | error b =>
      obtain ⟨cpu, hsite⟩ := init_loop_error_site _ _ _ _ _ _ hl
      rcases hsite with rfl | rfl | rfl | rfl <;> simp
    | ok p =>
      obtain ⟨tke1, idx⟩ := p
      simp only
      rcases hfin : init_finish env
          { tke := tke1, tegra210_timer_reg_base := tke1.reg_base, usec_config := c } hwl
        with ⟨r1, hw2⟩
      cases r1 with
      | error b =>
        obtain ⟨cpu, rfl⟩ := init_finish_error_site hfin
        simp
      | ok g1 => simp
  cases hu : usec_config_of f with
  | none =>
    have hnot := usec_config_of_none hu
    refine ⟨?_, ?_, fun _ => hnone hu, fun hin => absurd hin hnot⟩
    · simp [hnot]
    · simp [hnone hu, hnot]
  | some c =>
    have hin := (usec_config_of_some hu).1
    refine ⟨?_, ?_, fun hnot => absurd hin hnot, fun _ => ⟨c, rfl, hsome c hu⟩⟩
    · simp [hin]
    · constructor
      · intro h
        exact absurd h (hpast c hu)
      · intro hnot
        exact absurd hin hnot

theorem unknown_frequency_is_fatal_witness :
    demo_env.vmalloc_ok = true ∧ demo_np.of_iomap ≠ 0 ∧
    demo_np.tmr_count = some 4 ∧ 24000000 ∉ supported_freqs ∧
    tegra210_timer_init demo_env { demo_np with clock_frequency := some 24000000 } blank_hw
      = (.error .unknown_freq, blank_hw) :=
  ⟨rfl, by decide, rfl, by decide,
   (unknown_frequency_is_fatal demo_env { demo_np with clock_frequency := some 24000000 }
      blank_hw 4 24000000 rfl (by decide) rfl rfl).2.2.1 (by decide)⟩

/-! ## Register bases of the units -/

/-- C9: after a successful `tegra210_timer_init` the register base of the
unit of every possible CPU `i` is shared base + 0x90 + 8 * i; hence for
possible CPUs `i < j` the base of `i` is strictly below the base of `j`, the
bases differ by 8 per CPU, and no address of the 8-byte window of unit `i`
(control at +0x000, status at +0x004) lies in the window of unit `j`. -/
theorem unit_bases_strided (env : Platform) (np : device_node) (hw hw1 : Hw)
    (g : Globals) (hinit : tegra210_timer_init env np hw = (.ok g, hw1)) :
    (∀ i, i ∈ possible_cpus env →
      (g.tke.tegra210_tmr i).reg_base = np.of_iomap + 0x90 + 8 * i) ∧
    (∀ i j, i ∈ possible_cpus env → j ∈ possible_cpus env → i < j →
      (g.tke.tegra210_tmr i).reg_base < (g.tke.tegra210_tmr j).reg_base ∧
      (g.tke.tegra210_tmr j).reg_base = (g.tke.tegra210_tmr i).reg_base + 8 * (j - i) ∧
      (g.tke.tegra210_tmr i).reg_base + 0x004 + 4 ≤ (g.tke.tegra210_tmr j).reg_base + 0x000) ∧
    (∀ i j, i ∈ possible_cpus env → j ∈ possible_cpus env → i ≠ j →
      ∀ a, (g.tke.tegra210_tmr i).reg_base ≤ a → a < (g.tke.tegra210_tmr i).reg_base + 8 →
        ¬ ((g.tke.tegra210_tmr j).reg_base ≤ a ∧ a < (g.tke.tegra210_tmr j).reg_base + 8)) := by
  obtain ⟨_, _, n, freq, usec, tke1, idx, hwl, _, _, _, hl, hg1, _, _, _⟩ :=
    init_ok_inv hinit
  obtain ⟨_, hin, _⟩ := init_loop_ok _ _ _ _ _ _ _ hl
  have hbase : ∀ i, i ∈ possible_cpus env →
      (g.tke.tegra210_tmr i).reg_base = np.of_iomap + 0x90 + 8 * i := by
    intro i hi
    rw [hg1, hin i hi]
    simp only [TIMER_FOR_CPU, TIMER10_OFFSET]
    omega
  refine ⟨hbase, ?_, ?_⟩
  · intro i j hi hj hij
    rw [hbase i hi, hbase j hj]
    omega
  · intro i j hi hj hij a h1 h2
    rw [hbase i hi] at h1 h2
    rw [hbase j hj]
    omega

theorem unit_bases_strided_witness :
    ∃ g hw1, tegra210_timer_init demo_env demo_np blank_hw = (.ok g, hw1) ∧
      1 ∈ possible_cpus demo_env ∧ 3 ∈ possible_cpus demo_env ∧
      (g.tke.tegra210_tmr 3).reg_base = demo_np.of_iomap + 0x90 + 8 * 3 ∧
      (g.tke.tegra210_tmr 1).reg_base < (g.tke.tegra210_tmr 3).reg_base := by
  obtain ⟨g, hw1, h⟩ := demo_init_ok
  have hthm := unit_bases_strided demo_env demo_np blank_hw hw1 g h
  exact ⟨g, hw1, h, by decide, by decide, hthm.1 3 (by decide),
    (hthm.2.1 1 3 (by decide) (by decide) (by decide)).1⟩

/-- C10 (evaluation at the failing input): on a four-core part,
`tegra210_timer_init` succeeds, and the address it writes through unit 0
(`reg_base + TMRCSSR`, `0x10a4`) is the address of the status register of
unit 2 (`reg_base + TMRSR`), the one the interrupt handler of unit 2 writes:
the first register write of the initialisation goes to `0x10a4`, and so does
the acknowledge write of `tegra210_timer_isr` for unit 2. -/
theorem unit0_clock_select_is_unit2_status :
    (tegra210_timer_init demo_env demo_np blank_hw).1.toOption.map
        (fun g => ((g.tke.tegra210_tmr 0).reg_base + TMRCSSR,
                   (g.tke.tegra210_tmr 2).reg_base + TMRSR))
      = some (0x10a4, 0x10a4) ∧
    (tegra210_timer_init demo_env demo_np blank_hw).2.log.head?
      = some (Ev.writel 0x045f 0x10a4) ∧
    (tegra210_timer_init demo_env demo_np blank_hw).1.toOption.map
        (fun g => (tegra210_timer_isr 34 (g.tke.tegra210_tmr 2) (fun _ w => w)
          blank_hw).2.log.head?.map
            (fun e => match e with
              | Ev.writel _ addr => addr
              | _ => 0))
      = some (some 0x10a4) := by
  decide

/-! ## One-shot programming: bit fields of the control word -/

theorem one_shot_mem (cycles : Nat) (tmr : tegra210_tmr) (hw : Hw) (h : cycles < 2 ^ 32) :
    (tegra210_timer_set_next_event cycles tmr hw).2.mem (tmr.reg_base + 0x000)
      = 2 ^ 31 ||| (if cycles > 1 then cycles - 1 else 0) := by
  have hL : (if cycles > 1 then cycles - 1 else 0) < 2 ^ 32 := by
    split <;> omega
  simp only [tegra210_timer_set_next_event, __raw_writel, TMRCR, one_shot_word _ hL, if_true]

/-- C11 (as stated, refuted): for `cycles = 2^30 + 1`, a count below `2^32`,
the control word written by `tegra210_timer_set_next_event` is `0xC0000000`:
its periodic bit (30) is set, not clear. -/
theorem set_next_event_periodic_bit_counterexample :
    (2 ^ 30 + 1 : Nat) < 2 ^ 32 ∧
    (tegra210_timer_set_next_event (2 ^ 30 + 1) demo_tmr blank_hw).2.mem
        (demo_tmr.reg_base + 0x000) = 0xC0000000 ∧
    ((tegra210_timer_set_next_event (2 ^ 30 + 1) demo_tmr blank_hw).2.mem
        (demo_tmr.reg_base + 0x000)).testBit 30 = true := by
  decide

/-- C11 (amended): for every cycle count below `2^32`, with load value
`L = cycles - 1` when `cycles > 1` and `L = 0` otherwise,
`tegra210_timer_set_next_event` returns 0 and the control word it writes has
the enable bit (31) set, its countdown field (bits 0..28) equal to `L`
truncated to 29 bits, and its periodic bit (30) equal to bit 30 of `L`; so the
periodic bit is clear whenever `L < 2^30`. -/
theorem set_next_event_fields (cycles : Nat) (tmr : tegra210_tmr) (hw : Hw)
    (h : cycles < 2 ^ 32) :
    (tegra210_timer_set_next_event cycles tmr hw).1 = 0 ∧
    ((tegra210_timer_set_next_event cycles tmr hw).2.mem (tmr.reg_base + 0x000)).testBit 31
      = true ∧
    (tegra210_timer_set_next_event cycles tmr hw).2.mem (tmr.reg_base + 0x000) % 2 ^ 29
      = (if cycles > 1 then cycles - 1 else 0) % 2 ^ 29 ∧
    ((tegra210_timer_set_next_event cycles tmr hw).2.mem (tmr.reg_base + 0x000)).testBit 30
      = (if cycles > 1 then cycles - 1 else 0).testBit 30 ∧
    ((if cycles > 1 then cycles - 1 else 0) < 2 ^ 30 →
      ((tegra210_timer_set_next_event cycles tmr hw).2.mem
        (tmr.reg_base + 0x000)).testBit 30 = false) := by
  have hm := one_shot_mem cycles tmr hw h
  have h30 : ((tegra210_timer_set_next_event cycles tmr hw).2.mem
      (tmr.reg_base + 0x000)).testBit 30
      = (if cycles > 1 then cycles - 1 else 0).testBit 30 := by
    rw [hm, Nat.testBit_or, Nat.testBit_two_pow]
    simp
  refine ⟨rfl, ?_, ?_, h30, ?_⟩
  · rw [hm, Nat.testBit_or, Nat.testBit_two_pow_self]
    rfl
  · rw [hm, or_mod_two_pow_distrib]
    have hz : 2 ^ 31 % 2 ^ 29 = 0 := by norm_num
    rw [hz, Nat.zero_or]
  · intro hlt
    rw [h30]
    exact Nat.testBit_lt_two_pow hlt

theorem set_next_event_fields_witness :
    (0x20000005 : Nat) < 2 ^ 32 ∧
    (tegra210_timer_set_next_event 0x20000005 demo_tmr blank_hw).2.mem
        (demo_tmr.reg_base + 0x000) % 2 ^ 29 = 4 ∧
    ((tegra210_timer_set_next_event 0x20000005 demo_tmr blank_hw).2.mem
        (demo_tmr.reg_base + 0x000)).testBit 30 = false :=
  ⟨by decide,
   (set_next_event_fields 0x20000005 demo_tmr blank_hw (by decide)).2.2.1,
   (set_next_event_fields 0x20000005 demo_tmr blank_hw (by decide)).2.2.2.2 (by decide)⟩

theorem one_shot_mem_in_range (cycles : Nat) (tmr : tegra210_tmr) (hw : Hw)
    (h : cycles ≤ 2 ^ 29 - 1) :
    (tegra210_timer_set_next_event cycles tmr hw).2.mem (tmr.reg_base + 0x000)
      = 2 ^ 31 + (cycles - 1) := by
  have hL : (if cycles > 1 then cycles - 1 else 0) = cycles - 1 := by
    split <;> omega
  have hlt : cycles - 1 < 2 ^ 31 := by omega
  rw [one_shot_mem cycles tmr hw (by omega), hL]
  have := Nat.mul_add_lt_is_or hlt 1
  rw [Nat.mul_one] at this
  exact this.symm

/-- C16: for `1 ≤ cycles ≤ 2^29 - 1` the countdown field `F` (bits 0..28) of
the control word written by `tegra210_timer_set_next_event` satisfies
`F + 1 = cycles`, the enable bit is set and bits 29 and 30 are clear; on that
range the map from `cycles` to the written word is strictly increasing and
injective; and `cycles = 0` writes a word with `F + 1 = 1`. -/
theorem set_next_event_exact_in_range (tmr : tegra210_tmr) (hw : Hw) :
    (∀ cycles, 1 ≤ cycles → cycles ≤ 2 ^ 29 - 1 →
      (tegra210_timer_set_next_event cycles tmr hw).2.mem (tmr.reg_base + 0x000) % 2 ^ 29 + 1
        = cycles ∧
      ((tegra210_timer_set_next_event cycles tmr hw).2.mem
        (tmr.reg_base + 0x000)).testBit 31 = true ∧
      ((tegra210_timer_set_next_event cycles tmr hw).2.mem
        (tmr.reg_base + 0x000)).testBit 30 = false ∧
      ((tegra210_timer_set_next_event cycles tmr hw).2.mem
        (tmr.reg_base + 0x000)).testBit 29 = false) ∧
    (∀ c1 c2, 1 ≤ c1 → c1 < c2 → c2 ≤ 2 ^ 29 - 1 →
      (tegra210_timer_set_next_event c1 tmr hw).2.mem (tmr.reg_base + 0x000)
        < (tegra210_timer_set_next_event c2 tmr hw).2.mem (tmr.reg_base + 0x000)) ∧
    (∀ c1 c2, 1 ≤ c1 → c1 ≤ 2 ^ 29 - 1 → 1 ≤ c2 → c2 ≤ 2 ^ 29 - 1 →
      (tegra210_timer_set_next_event c1 tmr hw).2.mem (tmr.reg_base + 0x000)
        = (tegra210_timer_set_next_event c2 tmr hw).2.mem (tmr.reg_base + 0x000) →
      c1 = c2) ∧
    (tegra210_timer_set_next_event 0 tmr hw).2.mem (tmr.reg_base + 0x000) % 2 ^ 29 + 1
      = 1 := by
  refine ⟨?_, ?_, ?_, ?_⟩
  · intro cycles h1 h2
    rw [one_shot_mem_in_range cycles tmr hw h2]
    refine ⟨by omega, ?_, ?_, ?_⟩
    · rw [Nat.testBit_to_div_mod]
      apply decide_eq_true
      omega
    · rw [Nat.testBit_to_div_mod]
      apply decide_eq_false
      omega
    · rw [Nat.testBit_to_div_mod]
      apply decide_eq_false
      omega
  · intro c1 c2 h1 h12 h2
    rw [one_shot_mem_in_range c1 tmr hw (by omega), one_shot_mem_in_range c2 tmr hw h2]
    omega
  · intro c1 c2 h1 h1b h2 h2b heq
    rw [one_shot_mem_in_range c1 tmr hw h1b, one_shot_mem_in_range c2 tmr hw h2b] at heq
    omega
  · rw [one_shot_mem_in_range 0 tmr hw (by decide)]
    decide

theorem set_next_event_exact_in_range_witness :
    1 ≤ 5 ∧ 5 ≤ 2 ^ 29 - 1 ∧
    (tegra210_timer_set_next_event 5 demo_tmr blank_hw).2.mem (demo_tmr.reg_base + 0x000)
        % 2 ^ 29 + 1 = 5 ∧
    (tegra210_timer_set_next_event 5 demo_tmr blank_hw).2.mem (demo_tmr.reg_base + 0x000)
      < (tegra210_timer_set_next_event 6 demo_tmr blank_hw).2.mem (demo_tmr.reg_base + 0x000) :=
  ⟨by decide, by decide,
   ((set_next_event_exact_in_range demo_tmr blank_hw).1 5 (by decide) (by decide)).1,
   (set_next_event_exact_in_range demo_tmr blank_hw).2.1 5 6 (by decide) (by decide)
     (by decide)⟩

/-! ## Periodic preset for the supported frequencies -/

/-- C17: for each of the eight supported input frequencies `f` and every tick
rate `1 ≤ HZ ≤ 1000`, the preset `f / HZ - 1` computed on `u32` by
`tegra210_timer_set_periodic` does not wrap and is below `2^29`; the word left
in the control register is `2^31 + 2^30 + P`, with bits 31 and 30 set and low
29 bits `P`; and `0 ≤ f - (P + 1) * HZ < HZ`, the difference being 0 whenever
`HZ` divides 100000. -/
theorem periodic_preset_fits (HZ : Nat) (tmr : tegra210_tmr) (hw : Hw)
    (hf : tmr.freq ∈ supported_freqs) (h1 : 1 ≤ HZ) (h2 : HZ ≤ 1000) :
    u32_sub (tmr.freq / HZ) 1 = tmr.freq / HZ - 1 ∧
    1 ≤ tmr.freq / HZ ∧
    tmr.freq / HZ - 1 < 2 ^ 29 ∧
    (tegra210_timer_set_periodic HZ tmr hw).2.mem (tmr.reg_base + 0x000)
      = 2 ^ 31 + 2 ^ 30 + (tmr.freq / HZ - 1) ∧
    ((tegra210_timer_set_periodic HZ tmr hw).2.mem (tmr.reg_base + 0x000)).testBit 31 = true ∧
    ((tegra210_timer_set_periodic HZ tmr hw).2.mem (tmr.reg_base + 0x000)).testBit 30 = true ∧
    (tegra210_timer_set_periodic HZ tmr hw).2.mem (tmr.reg_base + 0x000) % 2 ^ 29
      = tmr.freq / HZ - 1 ∧
    (tmr.freq / HZ - 1 + 1) * HZ ≤ tmr.freq ∧
    tmr.freq - (tmr.freq / HZ - 1 + 1) * HZ < HZ ∧
    (HZ ∣ 100000 → tmr.freq - (tmr.freq / HZ - 1 + 1) * HZ = 0) := by
  have hlo : 12000000 ≤ tmr.freq := by
    simp only [supported_freqs, List.mem_cons, List.mem_singleton, List.not_mem_nil,
      or_false] at hf
    omega
  have hhi : tmr.freq ≤ 48000000 := by
    simp only [supported_freqs, List.mem_cons, List.mem_singleton, List.not_mem_nil,
      or_false] at hf
    omega
  have hdvd : 100000 ∣ tmr.freq := by
    simp only [supported_freqs, List.mem_cons, List.mem_singleton, List.not_mem_nil,
      or_false] at hf
    rcases hf with h | h | h | h | h | h | h | h <;> rw [h] <;> decide
  have hq1 : 1 ≤ tmr.freq / HZ := by
    rw [Nat.le_div_iff_mul_le (by omega)]
    omega
  have hq2 : tmr.freq / HZ ≤ 48000000 :=
    le_trans (Nat.div_le_self _ _) hhi
  have hmul : tmr.freq / HZ * HZ ≤ tmr.freq := Nat.div_mul_le_self _ _
  have hrem : tmr.freq - tmr.freq / HZ * HZ < HZ := by
    have hmod := Nat.mod_lt tmr.freq (show 0 < HZ by omega)
    have hdm := Nat.div_add_mod tmr.freq HZ
    rw [Nat.mul_comm] at hdm
    omega
  have hP : tmr.freq / HZ - 1 + 1 = tmr.freq / HZ := by omega
  have hv := periodic_word (tmr.freq / HZ) hq1 (by omega)
  have hmem : (tegra210_timer_set_periodic HZ tmr hw).2.mem (tmr.reg_base + 0x000)
      = 2 ^ 31 + 2 ^ 30 + (tmr.freq / HZ - 1) := by
    simp only [tegra210_timer_set_periodic, _shutdown, __raw_writel, TMRCR, hv, if_true]
  refine ⟨?_, hq1, by omega, hmem, ?_, ?_, ?_, ?_, ?_, ?_⟩
  · simp only [u32_sub, WORD32]
    omega
  · rw [hmem, Nat.testBit_to_div_mod]
    apply decide_eq_true
    omega
  · rw [hmem, Nat.testBit_to_div_mod]
    apply decide_eq_true
    omega
  · rw [hmem]
    omega
  · rw [hP]
    exact hmul
  · rw [hP]
    exact hrem
  · intro hd
    rw [hP]
    have hdf : HZ ∣ tmr.freq := Dvd.dvd.trans hd hdvd
    rw [Nat.div_mul_cancel hdf]
    exact Nat.sub_self _

theorem periodic_preset_fits_witness :
    demo_tmr.freq ∈ supported_freqs ∧ 1 ≤ 250 ∧ 250 ≤ 1000 ∧
    (tegra210_timer_set_periodic 250 demo_tmr blank_hw).2.mem (demo_tmr.reg_base + 0x000)
      = 2 ^ 31 + 2 ^ 30 + 76799 ∧
    demo_tmr.freq - (demo_tmr.freq / 250 - 1 + 1) * 250 = 0 :=
  ⟨by decide, by decide, by decide,
   (periodic_preset_fits 250 demo_tmr blank_hw (by decide) (by decide) (by decide)).2.2.2.1,
   (periodic_preset_fits 250 demo_tmr blank_hw (by decide) (by decide)
      (by decide)).2.2.2.2.2.2.2.2.2 (by decide)⟩

/-! ## Initialisation: fields of the units and what the loop checks -/

theorem init_cpu_fields {env : Platform} {np : device_node} {usec freq n cpu idx idx1 : Nat}
    {tke tke1 : tegra210_tke} {hw hw1 : Hw}
    (h : init_cpu env np usec freq n cpu tke idx hw = (.ok (tke1, idx1), hw1)) :
    (tke1.tegra210_tmr cpu).freq = freq ∧
    (tke1.tegra210_tmr cpu).evt.irq = np.irq_of_parse_and_map cpu ∧
    idx < n ∧ idx < Int_to_ulong np.of_irq_count ∧ idx1 = (idx + 1) % WORD64 := by
  simp only [init_cpu] at h
  split_ifs at h with h1 h2 h3 h4
  all_goals simp only [Prod.mk.injEq, Except.ok.injEq, reduceCtorEq, false_and] at h
  obtain ⟨⟨rfl, rfl⟩, _⟩ := h
  refine ⟨by simp [set_tmr], by simp [set_tmr], by omega, by omega, rfl⟩

theorem init_loop_fields {env : Platform} {np : device_node} {usec freq n : Nat}
    (l : List Nat) :
    ∀ (tke : tegra210_tke) (idx : Nat) (hw : Hw) (tke1 : tegra210_tke) (idx1 : Nat)
      (hw1 : Hw),
      init_loop env np usec freq n l tke idx hw = (.ok (tke1, idx1), hw1) →
      (∀ c, c ∈ l → (tke1.tegra210_tmr c).freq = freq ∧
        (tke1.tegra210_tmr c).evt.irq = np.irq_of_parse_and_map c) ∧
      (∀ c, ((tke.tegra210_tmr c).freq = freq ∧
          (tke.tegra210_tmr c).evt.irq = np.irq_of_parse_and_map c) →
        ((tke1.tegra210_tmr c).freq = freq ∧
          (tke1.tegra210_tmr c).evt.irq = np.irq_of_parse_and_map c)) := by
  induction l with
  | nil =>
    intro tke idx hw tke1 idx1 hw1 h
    simp only [init_loop, Prod.mk.injEq, Except.ok.injEq] at h
    obtain ⟨⟨rfl, _⟩, _⟩ := h
    exact ⟨by simp, fun _ hc => hc⟩
  | cons cpu rest ih =>
    intro tke idx hw tke1 idx1 hw1 h
    rw [init_loop] at h
    rcases hr : init_cpu env np usec freq n cpu tke idx hw with ⟨r, hwm⟩
    rw [hr] at h
    cases r with
    | error b => simp at h
    | ok p =>
      obtain ⟨tkem, idxm⟩ := p
      simp only at h
      obtain ⟨_, _, hother⟩ := init_cpu_ok hr
      obtain ⟨hfq, hirq, _, _, _⟩ := init_cpu_fields hr
      obtain ⟨hin, hkeep⟩ := ih tkem idxm hwm tke1 idx1 hw1 h
      have keep : ∀ c, ((tke.tegra210_tmr c).freq = freq ∧
          (tke.tegra210_tmr c).evt.irq = np.irq_of_parse_and_map c) →
          ((tke1.tegra210_tmr c).freq = freq ∧
            (tke1.tegra210_tmr c).evt.irq = np.irq_of_parse_and_map c) := by
        intro c hc
        apply hkeep
        by_cases hcc : c = cpu
        · rw [hcc]; exact ⟨hfq, hirq⟩
        · rw [hother c hcc]; exact hc
      refine ⟨?_, keep⟩
      intro c hc
      rcases List.mem_cons.mp hc with rfl | hc
      · exact hkeep _ ⟨hfq, hirq⟩
      · exact hin c hc

theorem init_unit_fields {env : Platform} {np : device_node} {hw hw1 : Hw} {g : Globals}
    (h : tegra210_timer_init env np hw = (.ok g, hw1)) :
    ∃ f, np.clock_frequency = some f ∧
      ∀ c, c ∈ possible_cpus env →
        (g.tke.tegra210_tmr c).reg_base = np.of_iomap + 0x90 + 8 * c ∧
        (g.tke.tegra210_tmr c).freq = f ∧
        (g.tke.tegra210_tmr c).evt.irq = np.irq_of_parse_and_map c := by
  obtain ⟨_, _, n, freq, usec, tke1, idx, hwl, _, hf, _, hl, hg1, _, _, _⟩ := init_ok_inv h
  obtain ⟨_, hin, _⟩ := init_loop_ok _ _ _ _ _ _ _ hl
  obtain ⟨hfl, _⟩ := init_loop_fields _ _ _ _ _ _ _ hl
  refine ⟨freq, hf, ?_⟩
  intro c hc
  rw [hg1]
  refine ⟨?_, (hfl c hc).1, (hfl c hc).2⟩
  rw [hin c hc]
  simp only [TIMER_FOR_CPU, TIMER10_OFFSET]
  omega

theorem Int_to_ulong_lt (x : Int) : Int_to_ulong x < WORD64 := by
  simp only [Int_to_ulong, WORD64]
  omega

theorem init_loop_contiguous {env : Platform} {np : device_node} {usec freq n : Nat}
    (m : Nat) :
    ∀ (s : Nat) (tke : tegra210_tke) (hw : Hw) (tke1 : tegra210_tke) (idx1 : Nat) (hw1 : Hw),
      init_loop env np usec freq n (List.range' s m) tke s hw = (.ok (tke1, idx1), hw1) →
      ∀ c, s ≤ c → c < s + m → c < n ∧ c < Int_to_ulong np.of_irq_count := by
  induction m with
  | zero =>
    intro s tke hw tke1 idx1 hw1 _ c h1 h2
    omega
  | succ m ih =>
    intro s tke hw tke1 idx1 hw1 h c h1 h2
    rw [List.range'_succ, init_loop] at h
    rcases hr : init_cpu env np usec freq n s tke s hw with ⟨r, hwm⟩
    rw [hr] at h
    cases r with
    | error b => simp at h
    | ok p =>
      obtain ⟨tkem, idxm⟩ := p
      simp only at h
      obtain ⟨_, _, hsn, hsi, hidx⟩ := init_cpu_fields hr
      have hlt := Int_to_ulong_lt np.of_irq_count
      have hidx1 : idxm = s + 1 := by
        rw [hidx]
        apply Nat.mod_eq_of_lt
        omega
      rw [hidx1] at h
      by_cases hcs : c = s
      · rw [hcs]
        exact ⟨hsn, hsi⟩
      · exact ih (s + 1) tkem hwm tke1 idx1 hw1 h c (by omega) (by omega)

/-- When every CPU id below `nr_cpu_ids` is possible (a contiguous set) and
`tegra210_timer_init` completes, every possible CPU id is below `tmr-count`
and below the interrupt count: on contiguous sets the two `BUG_ON` checks do
bound the index that is used. -/
theorem contiguous_cpus_index_checked {env : Platform} {np : device_node} {hw hw1 : Hw}
    {g : Globals} (hinit : tegra210_timer_init env np hw = (.ok g, hw1))
    (hall : ∀ c, c < env.nr_cpu_ids → env.cpu_possible c = true) :
    ∃ n, np.tmr_count = some n ∧
      ∀ c, c ∈ possible_cpus env → c < n ∧ c < Int_to_ulong np.of_irq_count := by
  obtain ⟨_, _, n, freq, usec, tke1, idx, hwl, hn, _, _, hl, _, _, _, _⟩ := init_ok_inv hinit
  have hcpus : possible_cpus env = List.range' 0 env.nr_cpu_ids := by
    rw [possible_cpus, ← List.range_eq_range']
    apply List.filter_eq_self.mpr
    intro c hc
    exact hall c (List.mem_range.mp hc)
  refine ⟨n, hn, ?_⟩
  intro c hc
  rw [hcpus] at hl hc
  have hcl : c < env.nr_cpu_ids := by
    have := List.mem_range'_1.mp hc
    omega
  exact init_loop_contiguous _ 0 _ _ _ _ _ hl c (Nat.zero_le c) (by omega)

/-- C12 (evaluation at the failing input): with possible CPUs 0 and 2,
`tmr-count = 2` and three interrupts, `tegra210_timer_init` completes although
CPU 2 has an id that is not below `tmr-count`: its unit is given the register
block `TIMER_FOR_CPU(2)` (base `0x10a0`) and interrupt index 2, because the two
`BUG_ON` checks compare the running counter `tmr_index` (0, then 1) and not
the CPU id. -/
theorem sparse_cpus_pass_the_index_checks :
    possible_cpus sparse_env = [0, 2] ∧
    sparse_np.tmr_count = some 2 ∧
    (tegra210_timer_init sparse_env sparse_np blank_hw).1.isOk = true ∧
    (tegra210_timer_init sparse_env sparse_np blank_hw).1.toOption.map
        (fun g => ((g.tke.tegra210_tmr 2).tmr_index, (g.tke.tegra210_tmr 2).reg_base,
                   (g.tke.tegra210_tmr 2).evt.irq))
      = some (1, 0x1000 + TIMER_FOR_CPU 2, sparse_np.irq_of_parse_and_map 2) ∧
    ((tegra210_timer_init sparse_env sparse_np blank_hw).2.log.filterMap
        (fun e => match e with
          | Ev.writel _ addr => some addr
          | Ev.request_irq irq _ _ => some irq
          | _ => none)) = [0x10a4, 32, 0x10b4, 34] := by
  decide

/-- C13: after a successful `tegra210_timer_init`, for possible CPUs `c` and
`j ≠ c` and every register state, `set_next_event`, `set_periodic`, `shutdown`
and the interrupt handler applied to unit `c` (with a callback that itself
only changes the two registers of unit `c`), the stop hook called with `c` and
the suspend hook run on CPU `c` change no register other than the control
register (`base_c + 0x000`) and the status register (`base_c + 0x004`) of unit
`c`: the control and status registers of unit `j` and the register at shared
base + 0x014 keep their values; every register write they log is to one of
those two addresses; and suspend returns 0. -/
theorem runtime_ops_touch_own_unit (env : Platform) (np : device_node) (hw0 hw1 : Hw)
    (g : Globals) (hinit : tegra210_timer_init env np hw0 = (.ok g, hw1))
    (c j : Nat) (hc : c ∈ possible_cpus env) (hj : j ∈ possible_cpus env) (hcj : j ≠ c)
    (cycles HZ irq : Nat) (handler : tegra210_tmr → Hw → Hw) (hw : Hw)
    (hh : ∀ w a, a ≠ (g.tke.tegra210_tmr c).reg_base + 0x000 →
      a ≠ (g.tke.tegra210_tmr c).reg_base + 0x004 →
      (handler (g.tke.tegra210_tmr c) w).mem a = w.mem a) :
    (∀ w1, w1 ∈ [(tegra210_timer_set_next_event cycles (g.tke.tegra210_tmr c) hw).2,
                 (tegra210_timer_set_periodic HZ (g.tke.tegra210_tmr c) hw).2,
                 (tegra210_timer_shutdown (g.tke.tegra210_tmr c) hw).2,
                 (tegra210_timer_isr irq (g.tke.tegra210_tmr c) handler hw).2,
                 (tegra210_timer_stop g c hw).2,
                 (tegra210_timer_suspend g c hw).2] →
      (∀ a, a ≠ (g.tke.tegra210_tmr c).reg_base + 0x000 →
        a ≠ (g.tke.tegra210_tmr c).reg_base + 0x004 → w1.mem a = hw.mem a) ∧
      w1.mem ((g.tke.tegra210_tmr j).reg_base + 0x000)
        = hw.mem ((g.tke.tegra210_tmr j).reg_base + 0x000) ∧
      w1.mem ((g.tke.tegra210_tmr j).reg_base + 0x004)
        = hw.mem ((g.tke.tegra210_tmr j).reg_base + 0x004) ∧
      w1.mem (np.of_iomap + 0x014) = hw.mem (np.of_iomap + 0x014)) ∧
    (tegra210_timer_suspend g c hw).1 = 0 ∧
    (∃ v, (tegra210_timer_set_next_event cycles (g.tke.tegra210_tmr c) hw).2.log
      = hw.log ++ [Ev.writel v ((g.tke.tegra210_tmr c).reg_base + 0x000)]) ∧
    (∃ v, (tegra210_timer_set_periodic HZ (g.tke.tegra210_tmr c) hw).2.log
      = hw.log ++ [Ev.writel 0 ((g.tke.tegra210_tmr c).reg_base + 0x000),
                   Ev.writel v ((g.tke.tegra210_tmr c).reg_base + 0x000)]) ∧
    (tegra210_timer_shutdown (g.tke.tegra210_tmr c) hw).2.log
      = hw.log ++ [Ev.writel 0 ((g.tke.tegra210_tmr c).reg_base + 0x000)] ∧
    (tegra210_timer_stop g c hw).2.log
      = hw.log ++ [Ev.writel 0 ((g.tke.tegra210_tmr c).reg_base + 0x000),
                   Ev.disable_irq_nosync (g.tke.tegra210_tmr c).evt.irq] ∧
    (tegra210_timer_suspend g c hw).2.log
      = hw.log ++ [Ev.writel 0 ((g.tke.tegra210_tmr c).reg_base + 0x000)] ∧
    (tegra210_timer_isr irq (g.tke.tegra210_tmr c) (fun _ w => w) hw).2.log
      = hw.log ++ [Ev.writel (2 ^ 30) ((g.tke.tegra210_tmr c).reg_base + 0x004),
                   Ev.event_handler (g.tke.tegra210_tmr c)] := by
  obtain ⟨f, _, hfields⟩ := init_unit_fields hinit
  have hbc := (hfields c hc).1
  have hbj := (hfields j hj).1
  have hz : int_shl 0 31 % WORD32 = 0 := by decide
  have h30 : int_shl 1 30 % WORD32 = 2 ^ 30 := by decide
  have hothers : ∀ w1 : Hw,
      (∀ a, a ≠ (g.tke.tegra210_tmr c).reg_base + 0x000 →
        a ≠ (g.tke.tegra210_tmr c).reg_base + 0x004 → w1.mem a = hw.mem a) →
      (∀ a, a ≠ (g.tke.tegra210_tmr c).reg_base + 0x000 →
        a ≠ (g.tke.tegra210_tmr c).reg_base + 0x004 → w1.mem a = hw.mem a) ∧
      w1.mem ((g.tke.tegra210_tmr j).reg_base + 0x000)
        = hw.mem ((g.tke.tegra210_tmr j).reg_base + 0x000) ∧
      w1.mem ((g.tke.tegra210_tmr j).reg_base + 0x004)
        = hw.mem ((g.tke.tegra210_tmr j).reg_base + 0x004) ∧
      w1.mem (np.of_iomap + 0x014) = hw.mem (np.of_iomap + 0x014) := by
    intro w1 hfr
    refine ⟨hfr, hfr _ ?_ ?_, hfr _ ?_ ?_, hfr _ ?_ ?_⟩
    all_goals rw [hbc]
    all_goals try rw [hbj]
    all_goals omega
  refine ⟨?_, rfl, ?_, ?_, ?_, ?_, ?_, ?_⟩
  · intro w1 hmem
    apply hothers
    simp only [List.mem_cons, List.mem_singleton, List.not_mem_nil, or_false] at hmem
    rcases hmem with rfl | rfl | rfl | rfl | rfl | rfl
    · intro a ha _
      exact writel_frame _ _ a hw ha
    · intro a ha _
      exact (writel_frame _ _ a _ ha).trans (shutdown_frame _ hw a ha)
    · intro a ha _
      exact shutdown_frame _ hw a ha
    · intro a ha ha4
      exact (hh _ a ha ha4).trans (writel_frame _ _ a hw ha4)
    · intro a ha _
      exact shutdown_frame _ hw a ha
    · intro a ha _
      exact shutdown_frame _ hw a ha
  · exact ⟨(int_to_ulong (int_shl 1 31) ||| (if cycles > 1 then cycles - 1 else 0)) % WORD32,
      rfl⟩
  · refine ⟨(int_shl 1 31 ||| int_shl 1 30
      ||| u32_sub ((g.tke.tegra210_tmr c).freq / HZ) 1) % WORD32, ?_⟩
    simp only [tegra210_timer_set_periodic, _shutdown, __raw_writel, TMRCR, hz,
      List.append_assoc, List.singleton_append]
  · simp only [tegra210_timer_shutdown, _shutdown, __raw_writel, TMRCR, hz]
  · simp only [tegra210_timer_stop, emit, _shutdown, __raw_writel, TMRCR, hz,
      List.append_assoc, List.singleton_append]
  · simp only [tegra210_timer_suspend, _shutdown, __raw_writel, TMRCR, hz]
  · simp only [tegra210_timer_isr, emit, __raw_writel, TMRSR, h30,
      List.append_assoc, List.singleton_append]

theorem runtime_ops_touch_own_unit_witness :
    ∃ g hw1, tegra210_timer_init demo_env demo_np blank_hw = (.ok g, hw1) ∧
      1 ∈ possible_cpus demo_env ∧ 3 ∈ possible_cpus demo_env ∧ 3 ≠ 1 ∧
      (∀ w a, a ≠ (g.tke.tegra210_tmr 1).reg_base + 0x000 →
        a ≠ (g.tke.tegra210_tmr 1).reg_base + 0x004 →
        (tegra210_timer_set_next_event 5 (g.tke.tegra210_tmr 1) w).2.mem a = w.mem a) ∧
      (tegra210_timer_isr 33 (g.tke.tegra210_tmr 1)
          (fun t w => (tegra210_timer_set_next_event 5 t w).2) hw1).2.mem
          ((g.tke.tegra210_tmr 3).reg_base + 0x004)
        = hw1.mem ((g.tke.tegra210_tmr 3).reg_base + 0x004) ∧
      (tegra210_timer_suspend g 1 hw1).2.mem (demo_np.of_iomap + 0x014)
        = hw1.mem (demo_np.of_iomap + 0x014) := by
  obtain ⟨g, hw1, h⟩ := demo_init_ok
  have hh : ∀ w a, a ≠ (g.tke.tegra210_tmr 1).reg_base + 0x000 →
      a ≠ (g.tke.tegra210_tmr 1).reg_base + 0x004 →
      (tegra210_timer_set_next_event 5 (g.tke.tegra210_tmr 1) w).2.mem a = w.mem a :=
    fun w a ha _ => writel_frame _ _ a w ha
  have hthm := runtime_ops_touch_own_unit demo_env demo_np blank_hw hw1 g h 1 3
    (by decide) (by decide) (by decide) 5 250 33
    (fun t w => (tegra210_timer_set_next_event 5 t w).2) hw1 hh
  exact ⟨g, hw1, h, by decide, by decide, by decide, hh,
    (hthm.1 _ (by simp)).2.2.1, (hthm.1 _ (by simp)).2.2.2⟩

/-! ## CPU hot-plug: stop, then start -/

end Tegra210Timer
